import Mathlib

/-!
Verification development for the LangGraph planning strategies of this
repository (src/planning: react, plan_solve, reflexion, ada_planner, lats,
base).  The Python code is shallowly embedded: strings are lists of
characters, each strategy's state TypedDict becomes a structure, each node
function becomes a Lean function from (scripted model response ×) state to a
partial update, and graph execution becomes a fuel-indexed step function.
Model responses and external tool invocations are inputs (scripts /
functions), since the model service and the tool registry are external
collaborators.
-/

/-- Python strings are modelled as lists of characters. -/
abbrev Str := List Char

/-- Conversion from Lean string literals into the model. -/
def str (s : String) : Str := s.toList

/-- Python whitespace for `str.strip` / `str.split()` (ASCII subset). -/
def pySpace (c : Char) : Bool :=
  c = ' ' || c = '\t' || c = '\n' || c = '\r' || c = Char.ofNat 11 || c = Char.ofNat 12

/-- Python `s.strip()`. -/
def pyStrip (s : Str) : Str :=
  ((s.dropWhile pySpace).reverse.dropWhile pySpace).reverse

/-- Python `needle in hay` (substring containment). -/
def pyContains (hay needle : Str) : Bool :=
  match hay with
  | [] => needle.isEmpty
  | _ :: rest => needle.isPrefixOf hay || pyContains rest needle

/-- Worker for `pySplit`; the fuel is at least `s.length + 1`, so it never
runs out before the input is consumed. -/
def pySplitGo (sep : Str) : Nat → Str → Str → List Str
  | 0, s, acc => [acc.reverse ++ s]
  | fuel + 1, s, acc =>
    if sep.isPrefixOf s && !sep.isEmpty then
      acc.reverse :: pySplitGo sep fuel (s.drop sep.length) []
    else
      match s with
      | [] => [acc.reverse]
      | c :: rest => pySplitGo sep fuel rest (c :: acc)

/-- Python `s.split(sep)` for a non-empty separator `sep`. -/
def pySplit (s sep : Str) : List Str :=
  if sep.isEmpty then [s] else pySplitGo sep (s.length + 1) s []

/-- Worker for `pyWords`. -/
def pyWordsGo : Str → Str → List Str
  | [], acc => if acc.isEmpty then [] else [acc.reverse]
  | c :: rest, acc =>
    if pySpace c then
      if acc.isEmpty then pyWordsGo rest [] else acc.reverse :: pyWordsGo rest []
    else pyWordsGo rest (c :: acc)

/-- Python `s.split()` with no argument: split on whitespace runs,
discarding empty pieces. -/
def pyWords (s : Str) : List Str := pyWordsGo s []

/-- Python `s.replace(old, new)` (replace all occurrences). -/
def pyReplace (s old new : Str) : Str :=
  List.intercalate new (pySplit s old)

/-- Python `s.upper()` (ASCII). -/
def pyUpper (s : Str) : Str := s.map Char.toUpper

/-- Numeric value of a digit string (helper for the float model). -/
def digitsVal (s : Str) : Nat :=
  s.foldl (fun n c => n * 10 + (c.toNat - '0'.toNat)) 0

/-- Exact decimal numbers `num / 10 ^ exp`, the model of the float values
the evaluator handles (the decimal literals in model responses are exact, so
IEEE rounding is abstracted away; comparisons agree with the rational
ones). -/
structure Dec where
  num : Int
  exp : Nat
deriving DecidableEq

/-- The rational value of a decimal. -/
def Dec.toQ (d : Dec) : ℚ := (d.num : ℚ) / (10 : ℚ) ^ d.exp

/-- Comparison of decimals by cross multiplication (computable, unlike `ℚ`
comparison by kernel reduction). -/
def Dec.le (a b : Dec) : Bool := a.num * (10 : Int) ^ b.exp ≤ b.num * (10 : Int) ^ a.exp

/-- Strict comparison of decimals. -/
def Dec.lt (a b : Dec) : Bool := a.num * (10 : Int) ^ b.exp < b.num * (10 : Int) ^ a.exp

/-- Python `==` on the modelled floats. -/
def Dec.feq (a b : Dec) : Bool := a.num * (10 : Int) ^ b.exp = b.num * (10 : Int) ^ a.exp

/-- `0.0`. -/
def Dec.zero : Dec := ⟨0, 0⟩

/-- `1.0`. -/
def Dec.one : Dec := ⟨1, 0⟩

/-- `0.5`. -/
def Dec.half : Dec := ⟨5, 1⟩

/-- Python `max(a, b)` (first argument on ties). -/
def pyMax2 (a b : Dec) : Dec := if Dec.le b a then a else b

/-- Python `min(a, b)` (first argument on ties). -/
def pyMin2 (a b : Dec) : Dec := if Dec.le a b then a else b

/-- Python `max(xs)` for a non-empty list (first maximal element). -/
def pyListMax (x : Dec) (xs : List Dec) : Dec :=
  xs.foldl (fun m y => if Dec.lt m y then y else m) x

/-- Model of CPython `float(s)` restricted to the decimal forms
`[+-]digits`, `[+-]digits.digits`, `[+-].digits`, `[+-]digits.` that the
evaluator scores use; other inputs are parse failures. -/
def parseFloatDec (s : Str) : Option Dec :=
  let sgn : Int × Str :=
    match s with
    | '-' :: r => (-1, r)
    | '+' :: r => (1, r)
    | _ => (1, s)
  let intPart := sgn.2.takeWhile Char.isDigit
  let rest := sgn.2.dropWhile Char.isDigit
  match rest with
  | [] => if intPart.isEmpty then none else some ⟨sgn.1 * digitsVal intPart, 0⟩
  | '.' :: frac =>
    if frac.all Char.isDigit && !(intPart.isEmpty && frac.isEmpty) then
      some ⟨sgn.1 * (digitsVal intPart * (10 : Int) ^ frac.length + digitsVal frac),
        frac.length⟩
    else none
  | _ => none

/-- Python truthiness of an `Optional[str]` value (`None` and `""` are
falsy). -/
def optStrTruthy : Option Str → Bool
  | some s => !s.isEmpty
  | none => false

/-- Decimal rendering of a natural number (Python f-string `{n}`). -/
def natStr (n : Nat) : Str := (toString n).toList

/-- A structured tool-call request `{id, name, args}` attached to a model
message; JSON-object arguments are modelled as association lists. -/
structure ToolCall where
  id : Str
  name : Str
  args : List (Str × Str)
deriving DecidableEq

/-- LangChain messages, as far as the strategies inspect them. -/
inductive Msg where
  | system (content : Str)
  | human (content : Str)
  | ai (content : Str) (tool_calls : List ToolCall)
  | tool (content : Str) (tool_call_id : Str) (name : Option Str)
deriving DecidableEq

/-- `getattr(m, "tool_calls", [])`: only `AIMessage` carries the
`tool_calls` attribute; the `hasattr` guards in the code make every other
message kind behave as an empty list. -/
def msgToolCalls : Msg → List ToolCall
  | .ai _ tcs => tcs
  | _ => []

/-- Content of a message. -/
def msgContent : Msg → Str
  | .system c => c
  | .human c => c
  | .ai c _ => c
  | .tool c _ _ => c

/-- `base.has_tool_calls`: whether the last message carries tool calls. -/
def hasToolCalls (messages : List Msg) : Bool :=
  match messages.getLast? with
  | none => false
  | some m => !(msgToolCalls m).isEmpty

/-- Content of the most recent `AIMessage` (`base.get_last_ai_message`),
with `""` when there is none (the `ada_planner.record_step_node` default). -/
def lastAiContentGo : List Msg → Str
  | [] => []
  | m :: rest =>
    match m with
    | .ai c _ => c
    | _ => lastAiContentGo rest

/-- Search `messages` from the most recent end for an AI message. -/
def lastAiContent (messages : List Msg) : Str :=
  lastAiContentGo messages.reverse

/-- A scripted model response: the content and tool calls of the message the
model service would return.  Each node's `llm.invoke` consumes the next
entry of the run's script. -/
structure LlmResp where
  content : Str
  tool_calls : List ToolCall
deriving DecidableEq

/-- External tool execution (the tool registry behind the prebuilt
`ToolNode`): tool name and arguments to stringified result. -/
abbrev ToolExec := Str → List (Str × Str) → Str

/-- The prebuilt `langgraph` `ToolNode` (used by react, plan_solve,
reflexion, lats): one tool-result message per tool call of the last
message, in declaration order, carrying the originating call id. -/
def toolNodeMessages (tx : ToolExec) (messages : List Msg) : List Msg :=
  match messages.getLast? with
  | none => []
  | some m => (msgToolCalls m).map
      (fun tc => Msg.tool (tx tc.name tc.args) tc.id (some tc.name))

/-- The plan parser shared verbatim by `plan_solve.planner_node`,
`ada_planner.planner_node` and `ada_planner.replanner_node`: keep the
stripped lines that are non-empty and start with a digit or `-`. -/
def parsePlanLines (text : Str) : List Str :=
  (pySplit text (str "\n")).filterMap (fun line =>
    let t := pyStrip line
    if !t.isEmpty && ((match t with
        | c :: _ => c.isDigit
        | [] => false) || (str "-").isPrefixOf t) then
      some t
    else none)


/-- Counts an assignment of the `final_answer` field by a partial update
(presence of the key in the returned dict). -/
def countWrite (u : Option Str) : Nat := if u.isSome then 1 else 0

/-- `final_answer` carried over or replaced by a partial update. -/
def mergeOptStr (upd old : Option Str) : Option Str :=
  match upd with
  | some v => some v
  | none => old

/-! ## ReAct (src/planning/react.py) -/

/-- `BaseAgentState` as used by the ReAct graph. -/
structure ReactState where
  messages : List Msg
  final_answer : Option Str
deriving DecidableEq

/-- A partial update returned by a ReAct node (`none` / `[]` = field
absent). -/
structure ReactUpdate where
  messages : List Msg := []
  final_answer : Option Str := none
deriving DecidableEq

/-- LangGraph merge for `BaseAgentState`: `messages` is annotated with
`add_messages` (the fresh response messages are appended), every other
field is replaced when present in the update. -/
def ReactState.applyUpdate (s : ReactState) (u : ReactUpdate) : ReactState :=
  { messages := s.messages ++ u.messages,
    final_answer := mergeOptStr u.final_answer s.final_answer }

/-- `react.agent_node`: the system-prompt prefixing only affects the model
input (which the script abstracts); a response without tool calls is
returned together with `final_answer`, otherwise only the response. -/
def reactAgentNode (resp : LlmResp) : ReactUpdate :=
  if resp.tool_calls.isEmpty then
    { messages := [Msg.ai resp.content resp.tool_calls],
      final_answer := some resp.content }
  else
    { messages := [Msg.ai resp.content resp.tool_calls] }

/-- Targets of the conditional edge out of `agent`. -/
inductive ReactRoute where
  | tools
  | finish
deriving DecidableEq

/-- `react.should_continue`. -/
def reactShouldContinue (st : ReactState) : ReactRoute :=
  if hasToolCalls st.messages then .tools else .finish

/-- Graph position of the compiled ReAct graph. -/
inductive ReactNode where
  | agent
  | tools
  | done
deriving DecidableEq

/-- One run of the ReAct graph: position, state, remaining scripted model
responses, plus instrumentation (number of `agent` executions and of
partial updates that assigned `final_answer`). -/
structure ReactCfg where
  node : ReactNode
  st : ReactState
  script : List LlmResp
  agentVisits : Nat
  faWrites : Nat
deriving DecidableEq

/-- One engine step of the ReAct graph: execute the current node, merge its
partial update, resolve the next node.  An exhausted script halts the
run. -/
def reactStep (tx : ToolExec) (c : ReactCfg) : ReactCfg :=
  match c.node with
  | .agent =>
    match c.script with
    | [] => { c with node := .done }
    | resp :: rest =>
      let u := reactAgentNode resp
      let st := c.st.applyUpdate u
      { node :=
          (match reactShouldContinue st with
            | .tools => ReactNode.tools
            | .finish => ReactNode.done)
        st := st
        script := rest
        agentVisits := c.agentVisits + 1
        faWrites := c.faWrites + countWrite u.final_answer }
  | .tools =>
    { c with
        node := .agent
        st := c.st.applyUpdate { messages := toolNodeMessages tx c.st.messages } }
  | .done => c

/-- Iterated engine steps of the ReAct graph. -/
def reactRun (tx : ToolExec) : Nat → ReactCfg → ReactCfg
  | 0, c => c
  | n + 1, c => reactRun tx n (reactStep tx c)

/-! ## Plan-and-Solve (src/planning/plan_solve.py) -/

/-- `PlanningState`. -/
structure PSState where
  messages : List Msg
  final_answer : Option Str
  plan : List Str
deriving DecidableEq

/-- A partial update returned by a Plan-and-Solve node. -/
structure PSUpdate where
  messages : List Msg := []
  final_answer : Option Str := none
  plan : Option (List Str) := none
deriving DecidableEq

/-- LangGraph merge for `PlanningState`. -/
def PSState.applyUpdate (s : PSState) (u : PSUpdate) : PSState :=
  { messages := s.messages ++ u.messages,
    final_answer := mergeOptStr u.final_answer s.final_answer,
    plan := u.plan.getD s.plan }

/-- `plan_solve.planner_node`: parse the response into plan steps, falling
back to the whole response text as a one-element plan. -/
def psPlannerNode (resp : LlmResp) : PSUpdate :=
  let plan_steps := parsePlanLines (pyStrip resp.content)
  { messages := [Msg.ai resp.content resp.tool_calls],
    plan := some (if plan_steps.isEmpty then [resp.content] else plan_steps) }

/-- `plan_solve.executor_node`: one tool-augmented model call; the update
assigns `final_answer` on every visit, tool calls or not. -/
def psExecutorNode (resp : LlmResp) : PSUpdate :=
  { messages := [Msg.ai resp.content resp.tool_calls],
    final_answer := some resp.content }

/-- Graph position of the compiled Plan-and-Solve graph. -/
inductive PSNode where
  | planner
  | executor
  | tools
  | done
deriving DecidableEq

/-- One run of the Plan-and-Solve graph. -/
structure PSCfg where
  node : PSNode
  st : PSState
  script : List LlmResp
  faWrites : Nat
deriving DecidableEq

/-- One engine step of the Plan-and-Solve graph.  The edge out of
`executor` is the prebuilt `tools_condition`: tool calls on the last
message go to `tools`, otherwise the run ends. -/
def psStep (tx : ToolExec) (c : PSCfg) : PSCfg :=
  match c.node with
  | .planner =>
    match c.script with
    | [] => { c with node := .done }
    | resp :: rest =>
      { c with
          node := .executor
          st := c.st.applyUpdate (psPlannerNode resp)
          script := rest }
  | .executor =>
    match c.script with
    | [] => { c with node := .done }
    | resp :: rest =>
      let u := psExecutorNode resp
      let st := c.st.applyUpdate u
      { node := (if hasToolCalls st.messages then PSNode.tools else PSNode.done)
        st := st
        script := rest
        faWrites := c.faWrites + countWrite u.final_answer }
  | .tools =>
    { c with
        node := .executor
        st := c.st.applyUpdate { messages := toolNodeMessages tx c.st.messages } }
  | .done => c

/-- Iterated engine steps of the Plan-and-Solve graph. -/
def psRun (tx : ToolExec) : Nat → PSCfg → PSCfg
  | 0, c => c
  | n + 1, c => psRun tx n (psStep tx c)

/-! ## Reflexion (src/planning/reflexion.py) -/

/-- `MAX_ITERATIONS` (reflexion). -/
def reflexionMaxIterations : Nat := 3

/-- `ReflexionState`. -/
structure RefState where
  messages : List Msg
  final_answer : Option Str
  draft_answer : Str
  critique : Str
  iteration : Nat
deriving DecidableEq

/-- A partial update returned by a Reflexion node. -/
structure RefUpdate where
  messages : List Msg := []
  final_answer : Option Str := none
  draft_answer : Option Str := none
  critique : Option Str := none
  iteration : Option Nat := none
deriving DecidableEq

/-- LangGraph merge for `ReflexionState`. -/
def RefState.applyUpdate (s : RefState) (u : RefUpdate) : RefState :=
  { messages := s.messages ++ u.messages
    final_answer := mergeOptStr u.final_answer s.final_answer
    draft_answer := u.draft_answer.getD s.draft_answer
    critique := u.critique.getD s.critique
    iteration := u.iteration.getD s.iteration }

/-- `reflexion.actor_node`: the critique-context system message only shapes
the model input; the update appends the response and replaces
`draft_answer` with its content. -/
def refActorNode (resp : LlmResp) : RefUpdate :=
  { messages := [Msg.ai resp.content resp.tool_calls]
    draft_answer := some resp.content }

/-- `reflexion.critique_node`: one model call (its response is *not*
appended to the messages); replaces `critique` and increments `iteration`
by exactly one. -/
def refCritiqueNode (resp : LlmResp) (st : RefState) : RefUpdate :=
  { critique := some resp.content
    iteration := some (st.iteration + 1) }

/-- `reflexion.finalize_node`. -/
def refFinalizeNode (st : RefState) : RefUpdate :=
  { final_answer := some st.draft_answer }

/-- Targets of the conditional edge out of `actor`. -/
inductive RefActorRoute where
  | tools
  | critique
deriving DecidableEq

/-- `reflexion.decide_actor_path` (reads `messages[-1].tool_calls`; after
`actor` the last message is the actor's response). -/
def refDecideActorPath (st : RefState) : RefActorRoute :=
  if hasToolCalls st.messages then .tools else .critique

/-- Targets of the conditional edge out of `critique` (`"__end__"` is wired
to the `finalize` node). -/
inductive RefLoopRoute where
  | actor
  | finish
deriving DecidableEq

/-- `reflexion.should_continue`. -/
def refShouldContinue (maxIterations : Nat) (st : RefState) : RefLoopRoute :=
  if pyContains st.critique (str "VERDICT: GOOD") || decide (maxIterations ≤ st.iteration) then
    .finish
  else .actor

/-- Graph position of the compiled Reflexion graph. -/
inductive RefNode where
  | actor
  | tools
  | critique
  | finalize
  | done
deriving DecidableEq

/-- One run of the Reflexion graph, with instrumentation (`critiquePasses`,
`faWrites`). -/
structure RefCfg where
  node : RefNode
  st : RefState
  script : List LlmResp
  critiquePasses : Nat
  faWrites : Nat
deriving DecidableEq

/-- One engine step of the Reflexion graph. -/
def refStep (tx : ToolExec) (maxIterations : Nat) (c : RefCfg) : RefCfg :=
  match c.node with
  | .actor =>
    match c.script with
    | [] => { c with node := .done }
    | resp :: rest =>
      let st := c.st.applyUpdate (refActorNode resp)
      { c with
          node :=
            (match refDecideActorPath st with
              | .tools => RefNode.tools
              | .critique => RefNode.critique)
          st := st
          script := rest }
  | .tools =>
    { c with
        node := .actor
        st := c.st.applyUpdate { messages := toolNodeMessages tx c.st.messages } }
  | .critique =>
    match c.script with
    | [] => { c with node := .done }
    | resp :: rest =>
      let st := c.st.applyUpdate (refCritiqueNode resp c.st)
      { c with
          node :=
            (match refShouldContinue maxIterations st with
              | .actor => RefNode.actor
              | .finish => RefNode.finalize)
          st := st
          script := rest
          critiquePasses := c.critiquePasses + 1 }
  | .finalize =>
    let u := refFinalizeNode c.st
    { c with
        node := .done
        st := c.st.applyUpdate u
        faWrites := c.faWrites + countWrite u.final_answer }
  | .done => c

/-- Iterated engine steps of the Reflexion graph. -/
def refRun (tx : ToolExec) (maxIterations : Nat) : Nat → RefCfg → RefCfg
  | 0, c => c
  | n + 1, c => refRun tx maxIterations n (refStep tx maxIterations c)

/-! ## AdaPlanner (src/planning/ada_planner.py) -/

/-- `AdaPlannerState`. -/
structure AdaState where
  messages : List Msg
  final_answer : Option Str
  current_plan : List Str
  completed_steps : List Str
  current_step_index : Nat
  executor_messages : List Msg
deriving DecidableEq

/-- A partial update returned by an AdaPlanner node. -/
structure AdaUpdate where
  messages : List Msg := []
  final_answer : Option Str := none
  current_plan : Option (List Str) := none
  completed_steps : Option (List Str) := none
  current_step_index : Option Nat := none
  executor_messages : Option (List Msg) := none
deriving DecidableEq

/-- LangGraph merge for `AdaPlannerState` (only `messages` is annotated
with `add_messages`; `executor_messages` is replaced wholesale). -/
def AdaState.applyUpdate (s : AdaState) (u : AdaUpdate) : AdaState :=
  { messages := s.messages ++ u.messages
    final_answer := mergeOptStr u.final_answer s.final_answer
    current_plan := u.current_plan.getD s.current_plan
    completed_steps := u.completed_steps.getD s.completed_steps
    current_step_index := u.current_step_index.getD s.current_step_index
    executor_messages := u.executor_messages.getD s.executor_messages }

/-- `ada_planner.planner_node`. -/
def adaPlannerNode (resp : LlmResp) : AdaUpdate :=
  let plan_steps := parsePlanLines (pyStrip resp.content)
  { messages := [Msg.ai resp.content resp.tool_calls]
    current_plan := some (if plan_steps.isEmpty then [resp.content] else plan_steps)
    completed_steps := some []
    current_step_index := some 0 }

/-- `"\n".join(f"{i + 1}. {s}" ...)` over a plan. -/
def adaEnumPlan (plan : List Str) : Str :=
  List.intercalate (str "\n") (plan.enum.map (fun p => natStr (p.1 + 1) ++ str ". " ++ p.2))

/-- The formatted `EXECUTOR_SYSTEM_PROMPT` of `ada_planner.executor_node`. -/
def adaExecutorSystem (st : AdaState) : Str :=
  str "You are executing step " ++ natStr (st.current_step_index + 1) ++
  str " of a code analysis plan.\n\nThe full plan is:\n" ++
  adaEnumPlan st.current_plan ++
  str "\n\nCurrent step to execute: " ++ st.current_plan.getD st.current_step_index [] ++
  str "\n\nPreviously completed steps:\n" ++
  (if st.completed_steps.isEmpty then str "None yet"
   else List.intercalate (str "\n") st.completed_steps) ++
  str "\n\nExecute ONLY the current step using the available tools. Be thorough but focused."

/-- `ada_planner.executor_node`, model-call branch (the
`step_index >= len(plan)` early return is applied by the engine step before
a scripted response is consumed). -/
def adaExecutorNode (resp : LlmResp) (st : AdaState) : AdaUpdate :=
  let current_step := st.current_plan.getD st.current_step_index []
  let em :=
    if st.executor_messages.isEmpty then
      [Msg.system (adaExecutorSystem st),
        Msg.human (str "Execute this step: " ++ current_step)]
    else st.executor_messages
  let respMsg := Msg.ai resp.content resp.tool_calls
  { messages := [respMsg]
    executor_messages := some (em ++ [respMsg]) }

/-- The registry behind `ada_planner.tools_node`: name plus an invocation
that either returns a stringified result or raises (`Except.error`). -/
abbrev ToolRegistry := List (Str × (List (Str × Str) → Except Str Str))

/-- `next((t for t in tools if t.name == tool_call["name"]), None)`. -/
def regLookup (reg : ToolRegistry) (name : Str) :
    Option (List (Str × Str) → Except Str Str) :=
  (reg.find? (fun t => t.1 == name)).map (fun t => t.2)

/-- The result-collection loop of `ada_planner.tools_node`: one tool-result
message per resolvable call, in declaration order; an exception becomes an
`Error: ...` content; a call whose name resolves to no tool appends
nothing.  (`ToolMessage(content=..., tool_call_id=...)` leaves `name`
unset.) -/
def adaToolResults (reg : ToolRegistry) : List ToolCall → List Msg
  | [] => []
  | tc :: rest =>
    match regLookup reg tc.name with
    | some f =>
      (match f tc.args with
        | .ok r => Msg.tool r tc.id none
        | .error e => Msg.tool (str "Error: " ++ e) tc.id none) :: adaToolResults reg rest
    | none => adaToolResults reg rest

/-- `ada_planner.tools_node`. -/
def adaToolsNode (reg : ToolRegistry) (st : AdaState) : AdaUpdate :=
  match st.messages.getLast? with
  | none => {}
  | some last =>
    if (msgToolCalls last).isEmpty then {}
    else
      let results := adaToolResults reg (msgToolCalls last)
      { messages := results
        executor_messages := some (st.executor_messages ++ results) }

/-- `ada_planner.record_step_node`. -/
def adaRecordStepNode (st : AdaState) : AdaUpdate :=
  if st.current_plan.length ≤ st.current_step_index then {}
  else
    let current_step := st.current_plan.getD st.current_step_index []
    let step_result :=
      str "Step " ++ natStr (st.current_step_index + 1) ++ str ": " ++ current_step ++
      str "\nResult: " ++ lastAiContent st.messages
    { completed_steps := some (st.completed_steps ++ [step_result])
      current_step_index := some (st.current_step_index + 1)
      executor_messages := some [] }

/-- `ada_planner.replanner_node`: literal-substring decision dispatch, the
`FINISHED` test taking precedence. -/
def adaReplannerNode (resp : LlmResp) (st : AdaState) : AdaUpdate :=
  let content := resp.content
  let respMsg := [Msg.ai resp.content resp.tool_calls]
  if pyContains content (str "DECISION: FINISHED") then
    let answer :=
      if pyContains content (str "ANSWER:") then
        pyStrip ((pySplit content (str "ANSWER:")).getLastD [])
      else content
    { messages := respMsg
      final_answer := some answer }
  else if pyContains content (str "DECISION: MODIFY") &&
      pyContains content (str "NEW_PLAN:") then
    let new_plan := parsePlanLines (pyStrip ((pySplit content (str "NEW_PLAN:")).getLastD []))
    { messages := respMsg
      current_plan := some (if new_plan.isEmpty then st.current_plan else new_plan)
      current_step_index := some 0 }
  else
    { messages := respMsg }

/-- Targets of the conditional edge out of `executor`. -/
inductive AdaExecRoute where
  | tools
  | record_step
deriving DecidableEq

/-- `ada_planner.decide_executor_path`. -/
def adaDecideExecutorPath (st : AdaState) : AdaExecRoute :=
  if hasToolCalls st.messages then .tools else .record_step

/-- Targets of the conditional edge out of `replanner`. -/
inductive AdaTopRoute where
  | executor
  | finish
deriving DecidableEq

/-- `ada_planner.should_continue` (note the Python truthiness of
`state.get("final_answer")`: an empty answer string does not end the
run). -/
def adaShouldContinue (st : AdaState) : AdaTopRoute :=
  if optStrTruthy st.final_answer then .finish
  else if st.current_step_index < st.current_plan.length then .executor
  else .finish

/-- Graph position of the compiled AdaPlanner graph. -/
inductive AdaNode where
  | planner
  | executor
  | tools
  | record_step
  | replanner
  | done
deriving DecidableEq

/-- Counts a partial-update assignment of a non-empty `final_answer`. -/
def countWriteNE (u : Option Str) : Nat := if optStrTruthy u then 1 else 0

/-- One run of the AdaPlanner graph; `faWrites` counts every update that
assigned `final_answer`, `faNonemptyWrites` only those assigning a
non-empty string. -/
structure AdaCfg where
  node : AdaNode
  st : AdaState
  script : List LlmResp
  faWrites : Nat
  faNonemptyWrites : Nat
deriving DecidableEq

/-- One engine step of the AdaPlanner graph. -/
def adaStep (reg : ToolRegistry) (c : AdaCfg) : AdaCfg :=
  match c.node with
  | .planner =>
    match c.script with
    | [] => { c with node := .done }
    | resp :: rest =>
      { c with
          node := .executor
          st := c.st.applyUpdate (adaPlannerNode resp)
          script := rest }
  | .executor =>
    if c.st.current_plan.length ≤ c.st.current_step_index then
      let st := c.st.applyUpdate { messages := [] }
      { c with
          node :=
            (match adaDecideExecutorPath st with
              | .tools => AdaNode.tools
              | .record_step => AdaNode.record_step)
          st := st }
    else
      match c.script with
      | [] => { c with node := .done }
      | resp :: rest =>
        let st := c.st.applyUpdate (adaExecutorNode resp c.st)
        { c with
            node :=
              (match adaDecideExecutorPath st with
                | .tools => AdaNode.tools
                | .record_step => AdaNode.record_step)
            st := st
            script := rest }
  | .tools =>
    { c with
        node := .executor
        st := c.st.applyUpdate (adaToolsNode reg c.st) }
  | .record_step =>
    { c with
        node := .replanner
        st := c.st.applyUpdate (adaRecordStepNode c.st) }
  | .replanner =>
    match c.script with
    | [] => { c with node := .done }
    | resp :: rest =>
      let u := adaReplannerNode resp c.st
      let st := c.st.applyUpdate u
      { node :=
          (match adaShouldContinue st with
            | .executor => AdaNode.executor
            | .finish => AdaNode.done)
        st := st
        script := rest
        faWrites := c.faWrites + countWrite u.final_answer
        faNonemptyWrites := c.faNonemptyWrites + countWriteNE u.final_answer }
  | .done => c

/-- Iterated engine steps of the AdaPlanner graph. -/
def adaRun (reg : ToolRegistry) : Nat → AdaCfg → AdaCfg
  | 0, c => c
  | n + 1, c => adaRun reg n (adaStep reg c)

/-! ## LATS (src/planning/lats.py) -/

/-- `NUM_CANDIDATES`. -/
def latsNumCandidates : Nat := 3

/-- `MAX_ITERATIONS` (lats). -/
def latsMaxIterations : Nat := 5

/-- A candidate dict `{raw, tool, args, result}`. -/
structure Cand where
  raw : Str
  tool : Option Str
  args : Option (List (Str × Str))
  result : Option Str
deriving DecidableEq

/-- `LATSState`. -/
structure LatsState where
  messages : List Msg
  final_answer : Option Str
  candidates : List Cand
  scores : List Dec
  best_path : Str
  is_solved : Bool
  current_candidate_index : Nat
deriving DecidableEq

/-- A partial update returned by a LATS node. -/
structure LatsUpdate where
  messages : List Msg := []
  final_answer : Option Str := none
  candidates : Option (List Cand) := none
  scores : Option (List Dec) := none
  best_path : Option Str := none
  is_solved : Option Bool := none
  current_candidate_index : Option Nat := none
deriving DecidableEq

/-- LangGraph merge for `LATSState`. -/
def LatsState.applyUpdate (s : LatsState) (u : LatsUpdate) : LatsState :=
  { messages := s.messages ++ u.messages
    final_answer := mergeOptStr u.final_answer s.final_answer
    candidates := u.candidates.getD s.candidates
    scores := u.scores.getD s.scores
    best_path := u.best_path.getD s.best_path
    is_solved := u.is_solved.getD s.is_solved
    current_candidate_index := u.current_candidate_index.getD s.current_candidate_index }

/-- External `json.loads` restricted to JSON objects, as the generator
prompt requests (`Args: [tool arguments as JSON]`); `none` covers both a
raised `JSONDecodeError` and any other unusable value about which the
claims say nothing. -/
abbrev JsonParse := Str → Option (List (Str × Str))

/-- Python truthiness of the parsed `args` value (`None` and `{}` are
falsy). -/
def argsTruthy : Option (List (Str × Str)) → Bool
  | some l => !l.isEmpty
  | none => false

/-- The per-line `Tool:` / `Args:` extraction loop of
`lats.generator_node` (later matches overwrite earlier ones; a failed
`json.loads` leaves `args` unchanged). -/
def latsCandScan (jsonParse : JsonParse)
    (acc : Option Str × Option (List (Str × Str))) (line : Str) :
    Option Str × Option (List (Str × Str)) :=
  if (str "Tool:").isPrefixOf line then
    (some (pyStrip (pyReplace line (str "Tool:") [])), acc.2)
  else if (str "Args:").isPrefixOf line then
    match jsonParse (pyStrip (pyReplace line (str "Args:") [])) with
    | some a => (acc.1, some a)
    | none => acc
  else acc

/-- Candidate parsing of `lats.generator_node`: split on `CANDIDATE` tags,
drop the text before the first tag, keep the first `num_candidates`
parts. -/
def latsParseCandidates (jsonParse : JsonParse) (numCandidates : Nat)
    (content : Str) : List Cand :=
  (((pySplit content (str "CANDIDATE")).drop 1).take numCandidates).map (fun part =>
    let raw := pyStrip part
    let ta := (pySplit raw (str "\n")).foldl (latsCandScan jsonParse) (none, none)
    { raw := raw, tool := ta.1, args := ta.2, result := none })

/-- `lats.generator_node` (the context/best-path prompt only shapes the
scripted model input): parses candidates and resets the candidate
cursor. -/
def latsGeneratorNode (jsonParse : JsonParse) (numCandidates : Nat)
    (resp : LlmResp) : LatsUpdate :=
  { candidates := some (latsParseCandidates jsonParse numCandidates resp.content)
    current_candidate_index := some 0
    messages := [Msg.ai resp.content resp.tool_calls] }

/-- `lats.execute_candidate_node`: for the cursor's candidate, synthesize a
single tool-call message (id `call_{index}`) when it carries a truthy
tool and truthy args, otherwise advance the cursor. -/
def latsExecuteCandidateNode (st : LatsState) : LatsUpdate :=
  if st.candidates.length ≤ st.current_candidate_index then {}
  else
    let cand := st.candidates.getD st.current_candidate_index ⟨[], none, none, none⟩
    if optStrTruthy cand.tool && argsTruthy cand.args then
      { messages := [Msg.ai []
          [{ id := str "call_" ++ natStr st.current_candidate_index
             name := cand.tool.getD []
             args := cand.args.getD [] }]] }
    else
      { current_candidate_index := some (st.current_candidate_index + 1) }

/-- The `for msg in reversed(messages)` scan of
`lats.process_tool_result_node`: content of the most recent tool message,
truncated to 500 characters, defaulting to `"No result"`. -/
def latsRecentToolContentGo : List Msg → Str
  | [] => str "No result"
  | m :: rest =>
    match m with
    | .tool c _ _ => c.take 500
    | _ => latsRecentToolContentGo rest

/-- Most recent tool-result content in a message list. -/
def latsRecentToolContent (messages : List Msg) : Str :=
  latsRecentToolContentGo messages.reverse

/-- `lats.process_tool_result_node`: attach the most recent tool-result
content to the cursor's candidate and advance the cursor. -/
def latsProcessToolResultNode (st : LatsState) : LatsUpdate :=
  if st.candidates.length ≤ st.current_candidate_index then {}
  else
    let cand := st.candidates.getD st.current_candidate_index ⟨[], none, none, none⟩
    { candidates := some (st.candidates.set st.current_candidate_index
        { cand with result := some (latsRecentToolContent st.messages) })
      current_candidate_index := some (st.current_candidate_index + 1) }

/-- Targets of the conditional edge out of `execute_candidate`
(`next_candidate` is wired to the `process_result` node). -/
inductive LatsCandRoute where
  | tools
  | next_candidate
deriving DecidableEq

/-- `lats.decide_candidate_path`. -/
def latsDecideCandidatePath (st : LatsState) : LatsCandRoute :=
  if hasToolCalls st.messages then .tools else .next_candidate

/-- Targets of the conditional edge out of `process_result`. -/
inductive LatsLoopRoute where
  | execute_candidate
  | evaluator
deriving DecidableEq

/-- `lats.should_continue_candidates`. -/
def latsShouldContinueCandidates (st : LatsState) : LatsLoopRoute :=
  if st.current_candidate_index < st.candidates.length then .execute_candidate
  else .evaluator

/-- `line.split(":")[-1].strip().split()[0]` fed to `float(...)`, with
`none` for the `IndexError`/`ValueError` cases the `except` catches. -/
def latsScoreTok (line : Str) : Option Dec :=
  match pyWords (pyStrip ((pySplit line (str ":")).getLastD [])) with
  | [] => none
  | w :: _ => parseFloatDec w

/-- Score contributed by one `CANDIDATE` line of the evaluator response:
the parsed score clamped to `[0, 1]` via `min(max(score, 0.0), 1.0)`, or
`0.5` when unparsable. -/
def latsScoreOfLine (line : Str) : Dec :=
  match latsScoreTok line with
  | none => Dec.half
  | some q => pyMin2 (pyMax2 q Dec.zero) Dec.one

/-- The score-parsing loop of `lats.evaluator_node`: one score per line
that (stripped) starts with `CANDIDATE` and contains `:`. -/
def latsParseScores (content : Str) : List Dec :=
  (pySplit content (str "\n")).filterMap (fun line =>
    if (str "CANDIDATE").isPrefixOf (pyStrip line) && pyContains line (str ":") then
      some (latsScoreOfLine line)
    else none)

/-- The `while len(scores) < len(candidates)` padding loop. -/
def latsPadScores (scores : List Dec) (n : Nat) : List Dec :=
  scores ++ List.replicate (n - scores.length) Dec.half

/-- `lats.evaluator_node`. -/
def latsEvaluatorNode (resp : LlmResp) (st : LatsState) : LatsUpdate :=
  { scores := some (latsPadScores (latsParseScores resp.content) st.candidates.length)
    is_solved := some (pyContains (pyUpper resp.content) (str "SOLVED: YES"))
    messages := [Msg.ai resp.content resp.tool_calls] }

/-- `scores.index(max(scores))` of `lats.selector_node`: the first index
attaining the maximum score. -/
def latsBestIndex (scores : List Dec) : Nat :=
  match scores with
  | [] => 0
  | s :: rest => (s :: rest).findIdx (fun q => Dec.feq q (pyListMax s rest))

/-- `lats.selector_node`, given the value `count` of the *closure-level*
`iteration_counter["count"]` after its increment (the counter is not part
of the graph state; see the engine step).  The chosen best candidate only
shapes the model input; the update extends `best_path` and, when solved or
at the iteration cap, assigns `final_answer` and marks the run solved. -/
def latsSelectorNode (maxIterations : Nat) (resp : LlmResp) (count : Nat)
    (st : LatsState) : LatsUpdate :=
  let base : LatsUpdate :=
    { best_path := some (st.best_path ++ str "\n\nIteration " ++ natStr count ++
        str ": " ++ resp.content.take 300)
      messages := [Msg.ai resp.content resp.tool_calls] }
  if st.is_solved || decide (maxIterations ≤ count) then
    { base with
        final_answer := some resp.content
        is_solved := some true }
  else base

/-- Targets of the conditional edge out of `selector`. -/
inductive LatsTopRoute where
  | generator
  | finish
deriving DecidableEq

/-- `lats.should_continue` (Python truthiness of
`state.get("is_solved") or state.get("final_answer")`). -/
def latsShouldContinue (st : LatsState) : LatsTopRoute :=
  if st.is_solved || optStrTruthy st.final_answer then .finish else .generator

/-- Graph position of the compiled LATS graph. -/
inductive LatsNode where
  | generator
  | execute_candidate
  | tools
  | process_result
  | evaluator
  | selector
  | done
deriving DecidableEq

/-- One run of the LATS graph.  `counterCell` models the closure dict
`iteration_counter` created once per `create_graph` call: it survives
between runs of the same compiled graph, so it sits in the configuration
but outside `LatsState`.  `invoked` records the tool names actually
executed, `selectorPasses` counts selector executions. -/
structure LatsCfg where
  node : LatsNode
  st : LatsState
  script : List LlmResp
  counterCell : Nat
  selectorPasses : Nat
  invoked : List Str
  faWrites : Nat
deriving DecidableEq

/-- One engine step of the LATS graph. -/
def latsStep (jsonParse : JsonParse) (tx : ToolExec)
    (numCandidates maxIterations : Nat) (c : LatsCfg) : LatsCfg :=
  match c.node with
  | .generator =>
    match c.script with
    | [] => { c with node := .done }
    | resp :: rest =>
      { c with
          node := .execute_candidate
          st := c.st.applyUpdate (latsGeneratorNode jsonParse numCandidates resp)
          script := rest }
  | .execute_candidate =>
    let st := c.st.applyUpdate (latsExecuteCandidateNode c.st)
    { c with
        node :=
          (match latsDecideCandidatePath st with
            | .tools => LatsNode.tools
            | .next_candidate => LatsNode.process_result)
        st := st }
  | .tools =>
    let names :=
      (match c.st.messages.getLast? with
        | none => []
        | some m => (msgToolCalls m).map (fun tc => tc.name))
    { c with
        node := .process_result
        st := c.st.applyUpdate { messages := toolNodeMessages tx c.st.messages }
        invoked := c.invoked ++ names }
  | .process_result =>
    let st := c.st.applyUpdate (latsProcessToolResultNode c.st)
    { c with
        node :=
          (match latsShouldContinueCandidates st with
            | .execute_candidate => LatsNode.execute_candidate
            | .evaluator => LatsNode.evaluator)
        st := st }
  | .evaluator =>
    match c.script with
    | [] => { c with node := .done }
    | resp :: rest =>
      { c with
          node := .selector
          st := c.st.applyUpdate (latsEvaluatorNode resp c.st)
          script := rest }
  | .selector =>
    match c.script with
    | [] => { c with node := .done }
    | resp :: rest =>
      let count := c.counterCell + 1
      let u := latsSelectorNode maxIterations resp count c.st
      let st := c.st.applyUpdate u
      { node :=
          (match latsShouldContinue st with
            | .generator => LatsNode.generator
            | .finish => LatsNode.done)
        st := st
        script := rest
        counterCell := count
        selectorPasses := c.selectorPasses + 1
        invoked := c.invoked
        faWrites := c.faWrites + countWrite u.final_answer }
  | .done => c

/-- Iterated engine steps of the LATS graph. -/
def latsRun (jsonParse : JsonParse) (tx : ToolExec)
    (numCandidates maxIterations : Nat) : Nat → LatsCfg → LatsCfg
  | 0, c => c
  | n + 1, c => latsRun jsonParse tx numCandidates maxIterations n
      (latsStep jsonParse tx numCandidates maxIterations c)

/-! ## Concrete scenarios -/

/-- A deterministic external tool registry for concrete runs. -/
def txConst : ToolExec := fun name _ => str "RES:" ++ name

/-- A `json.loads` stub that always fails (no scenario below parses
arguments). -/
def jpNone : JsonParse := fun _ => none

/-- The ReAct scenario of the spec's testable property: a model stub whose
first response carries one tool call and whose second is content-only. -/
def reactTwoTurnCfg (q c1 c2 : Str) (tc : ToolCall) : ReactCfg :=
  { node := .agent
    st := { messages := [Msg.human q], final_answer := none }
    script := [⟨c1, [tc]⟩, ⟨c2, []⟩]
    agentVisits := 0
    faWrites := 0 }

/-- A Plan-and-Solve run whose first executor response calls a tool and
whose second is content-only. -/
def psDoubleCfg : PSCfg :=
  { node := .planner
    st := { messages := [Msg.human (str "q")], final_answer := none, plan := [] }
    script := [⟨str "1. find the answer", []⟩,
               ⟨str "working on it", [⟨str "id1", str "t", [(str "k", str "v")]⟩]⟩,
               ⟨str "the final text", []⟩]
    faWrites := 0 }

/-- A Reflexion run in which no critique verdict ever contains the good
marker. -/
def refNeverGoodCfg : RefCfg :=
  { node := .actor
    st := { messages := [Msg.human (str "q")], final_answer := none,
            draft_answer := [], critique := [], iteration := 0 }
    script := [⟨str "draft1", []⟩, ⟨str "VERDICT: BAD\nFEEDBACK: thin", []⟩,
               ⟨str "draft2", []⟩, ⟨str "VERDICT: BAD\nFEEDBACK: thin", []⟩,
               ⟨str "draft3", []⟩, ⟨str "VERDICT: BAD\nFEEDBACK: thin", []⟩,
               ⟨str "draft4", []⟩, ⟨str "VERDICT: BAD", []⟩]
    critiquePasses := 0
    faWrites := 0 }

/-- The tool-name dispatcher of the LATS candidate-round scenario. -/
def txLats : ToolExec := fun name _ =>
  if name = str "t1" then str "RA" else str "RC"

/-- A LATS round, entered right after the generator, whose second candidate
carries no tool+arguments pair while the first and third do. -/
def latsRoundCfg : LatsCfg :=
  { node := .execute_candidate
    st := { messages := [Msg.human (str "q"), Msg.ai (str "gen") []]
            final_answer := none
            candidates := [⟨str "a", some (str "t1"), some [(str "q", str "1")], none⟩,
                           ⟨str "b", none, none, none⟩,
                           ⟨str "c", some (str "t2"), some [(str "q", str "2")], none⟩]
            scores := []
            best_path := []
            is_solved := false
            current_candidate_index := 0 }
    script := []
    counterCell := 0
    selectorPasses := 0
    invoked := []
    faWrites := 0 }

/-- A LATS run that never produces candidates and is never solved, started
with the given value of the closure counter cell (fresh graphs start at 0;
a second run through the same compiled graph starts at whatever the first
run left behind). -/
def latsNeverSolvedCfg (counter0 : Nat) : LatsCfg :=
  { node := .generator
    st := { messages := [Msg.human (str "q")]
            final_answer := none
            candidates := []
            scores := []
            best_path := []
            is_solved := false
            current_candidate_index := 0 }
    script := [⟨str "no tags here", []⟩, ⟨str "nothing to score", []⟩, ⟨str "progress", []⟩,
               ⟨str "no tags here", []⟩, ⟨str "nothing to score", []⟩, ⟨str "progress", []⟩]
    counterCell := counter0
    selectorPasses := 0
    invoked := []
    faWrites := 0 }

/-- The evaluator response of the spec's LATS testable property. -/
def latsEvalContent : Str :=
  str "CANDIDATE 1: 0.9\nCANDIDATE 2: 0.2\nBEST: 1\nSOLVED: YES"

/-- A LATS round at the evaluator, both candidates carrying results, driven
by `latsEvalContent` and then one selector response. -/
def latsEvalCfg : LatsCfg :=
  { node := .evaluator
    st := { messages := [Msg.human (str "q")]
            final_answer := none
            candidates := [⟨str "a", none, none, some (str "ra")⟩,
                           ⟨str "b", none, none, some (str "rb")⟩]
            scores := []
            best_path := []
            is_solved := false
            current_candidate_index := 2 }
    script := [⟨latsEvalContent, []⟩, ⟨str "final synthesis", []⟩]
    counterCell := 0
    selectorPasses := 0
    invoked := []
    faWrites := 0 }

/-- An AdaPlanner state with a non-trivial plan and step index, used to
observe what the replanner update changes. -/
def adaPlanSt : AdaState :=
  { messages := [Msg.human (str "q")]
    final_answer := none
    current_plan := [str "1. A", str "2. B"]
    completed_steps := []
    current_step_index := 3
    executor_messages := [] }

/-- A fresh AdaPlanner run over `adaPlanSt` with an empty script. -/
def adaFreshCfg : AdaCfg :=
  { node := .planner
    st := adaPlanSt
    script := []
    faWrites := 0
    faNonemptyWrites := 0 }

/-- An AdaPlanner run over a two-step plan whose first replanner response
is `DECISION: FINISHED` with an empty `ANSWER:` (the extracted answer
strips to `""`, which `should_continue` treats as falsy) and whose second
replanner response finishes with a non-empty answer. -/
def adaDoubleCfg : AdaCfg :=
  { node := .planner
    st := { messages := [Msg.human (str "q")], final_answer := none,
            current_plan := [], completed_steps := [], current_step_index := 0,
            executor_messages := [] }
    script := [⟨str "1. A\n2. B", []⟩,
               ⟨str "did step one", []⟩,
               ⟨str "DECISION: FINISHED\nANSWER:", []⟩,
               ⟨str "did step two", []⟩,
               ⟨str "DECISION: FINISHED\nANSWER: the answer", []⟩]
    faWrites := 0
    faNonemptyWrites := 0 }

/-- A registry with one working tool and one raising tool. -/
def adaRegAB : ToolRegistry :=
  [(str "alpha", fun _ => Except.ok (str "okA")),
   (str "boom", fun _ => Except.error (str "ka-pow"))]

/-- An AdaPlanner state whose last message requests three tool calls: an
unresolvable name, a working tool and a raising tool. -/
def adaThreeCallsSt : AdaState :=
  { adaPlanSt with
      messages := [Msg.ai []
        [⟨str "i1", str "beta", []⟩, ⟨str "i2", str "alpha", []⟩,
         ⟨str "i3", str "boom", []⟩]] }

/-- Once a ReAct step has recorded a `final_answer` write, the run is at the
terminal node; writes never exceed one. -/
def ReactCfg.writeInv (c : ReactCfg) : Prop :=
  c.faWrites ≤ 1 ∧ (c.faWrites = 1 → c.node = ReactNode.done)

/-- Reflexion write invariant: a recorded `final_answer` write implies the
run is at the terminal node. -/
def RefCfg.writeInv (c : RefCfg) : Prop :=
  c.faWrites ≤ 1 ∧ (c.faWrites = 1 → c.node = RefNode.done)

/-- AdaPlanner write invariant, counted on non-empty `final_answer`
assignments (the Python-truthy ones that end the run). -/
def AdaCfg.writeInv (c : AdaCfg) : Prop :=
  c.faNonemptyWrites ≤ 1 ∧ (c.faNonemptyWrites = 1 → c.node = AdaNode.done)

/-- LATS write invariant. -/
def LatsCfg.writeInv (c : LatsCfg) : Prop :=
  c.faWrites ≤ 1 ∧ (c.faWrites = 1 → c.node = LatsNode.done)

/-- The replanner response of the spec's AdaPlanner testable property. -/
def adaModifyResp : LlmResp :=
  ⟨str "DECISION: MODIFY\nNEW_PLAN: 1. X\n2. Y", []⟩

/-- A replanner response containing the FINISHED marker as well as the
MODIFY and NEW_PLAN markers (with an unparsable NEW_PLAN body). -/
def adaFinishedModifyResp : LlmResp :=
  ⟨str "DECISION: FINISHED\nDECISION: MODIFY\nNEW_PLAN: rethink from scratch", []⟩

/-- A MODIFY response whose NEW_PLAN body has no numbered/bulleted line. -/
def adaUnparsableModifyResp : LlmResp :=
  ⟨str "DECISION: MODIFY\nNEW_PLAN: rethink approach entirely", []⟩

/-- An AdaPlanner state whose last message carries a single tool call whose
name resolves to nothing in the registry. -/
def adaUnknownCallSt : AdaState :=
  { adaPlanSt with messages := [Msg.ai [] [⟨str "i1", str "beta", []⟩]] }

/-- A Reflexion state holding a good verdict (used to witness the loop
dispatch). -/
def refGoodVerdictSt : RefState :=
  { messages := []
    final_answer := none
    draft_answer := []
    critique := str "VERDICT: GOOD"
    iteration := 0 }

/-- Reflexion loop invariant: the critique-pass count always equals the
iteration counter (both start at 0 and move together), the counter never
exceeds the maximum, and strictly below it while the actor/tools/critique
loop is still live. -/
def RefCfg.loopInv (mi : Nat) (c : RefCfg) : Prop :=
  c.critiquePasses = c.st.iteration ∧
  c.st.iteration ≤ mi ∧
  ((c.node = RefNode.actor ∨ c.node = RefNode.tools ∨ c.node = RefNode.critique) →
    c.st.iteration < mi)

/-! ## Merge-semantics lemmas -/

@[simp]
theorem mergeOptStr_some (v : Str) (old : Option Str) : mergeOptStr (some v) old = some v := rfl

@[simp]
theorem mergeOptStr_none (old : Option Str) : mergeOptStr none old = old := rfl

theorem hasToolCalls_append_ai (msgs : List Msg) (c : Str) (tcs : List ToolCall) :
    hasToolCalls (msgs ++ [Msg.ai c tcs]) = !tcs.isEmpty := by
  simp [hasToolCalls, msgToolCalls]

theorem reactStep_msgs_extend (tx : ToolExec) (c : ReactCfg) :
    c.st.messages <+: (reactStep tx c).st.messages := by
  rcases c with ⟨node, st, script, av, fw⟩
  cases node with
  | agent =>
    cases script with
    | nil => exact List.prefix_rfl
    | cons r rest => exact List.prefix_append _ _
  | tools => exact List.prefix_append _ _
  | done => exact List.prefix_rfl

theorem reactRun_msgs_extend (tx : ToolExec) (n : Nat) (c : ReactCfg) :
    c.st.messages <+: (reactRun tx n c).st.messages := by
  induction n generalizing c with
  | zero => exact List.prefix_rfl
  | succ n ih => exact (reactStep_msgs_extend tx c).trans (ih (reactStep tx c))

theorem psStep_msgs_extend (tx : ToolExec) (c : PSCfg) :
    c.st.messages <+: (psStep tx c).st.messages := by
  rcases c with ⟨node, st, script, fw⟩
  cases node with
  | planner =>
    cases script with
    | nil => exact List.prefix_rfl
    | cons r rest => exact List.prefix_append _ _
  | executor =>
    cases script with
    | nil => exact List.prefix_rfl
    | cons r rest => exact List.prefix_append _ _
  | tools => exact List.prefix_append _ _
  | done => exact List.prefix_rfl

theorem psRun_msgs_extend (tx : ToolExec) (n : Nat) (c : PSCfg) :
    c.st.messages <+: (psRun tx n c).st.messages := by
  induction n generalizing c with
  | zero => exact List.prefix_rfl
  | succ n ih => exact (psStep_msgs_extend tx c).trans (ih (psStep tx c))

theorem refStep_msgs_extend (tx : ToolExec) (mi : Nat) (c : RefCfg) :
    c.st.messages <+: (refStep tx mi c).st.messages := by
  rcases c with ⟨node, st, script, cp, fw⟩
  cases node with
  | actor =>
    cases script with
    | nil => exact List.prefix_rfl
    | cons r rest => exact List.prefix_append _ _
  | tools => exact List.prefix_append _ _
  | critique =>
    cases script with
    | nil => exact List.prefix_rfl
    | cons r rest => exact List.prefix_append _ _
  | finalize => exact List.prefix_append _ _
  | done => exact List.prefix_rfl

theorem refRun_msgs_extend (tx : ToolExec) (mi n : Nat) (c : RefCfg) :
    c.st.messages <+: (refRun tx mi n c).st.messages := by
  induction n generalizing c with
  | zero => exact List.prefix_rfl
  | succ n ih => exact (refStep_msgs_extend tx mi c).trans (ih (refStep tx mi c))

theorem adaStep_msgs_extend (reg : ToolRegistry) (c : AdaCfg) :
    c.st.messages <+: (adaStep reg c).st.messages := by
  rcases c with ⟨node, st, script, fw, fwne⟩
  cases node with
  | planner =>
    cases script with
    | nil => exact List.prefix_rfl
    | cons r rest => exact List.prefix_append _ _
  | executor =>
    by_cases h : st.current_plan.length ≤ st.current_step_index
    · simp only [adaStep, h, if_pos]
      exact List.prefix_append _ _
    · simp only [adaStep, h, if_neg, not_false_iff]
      cases script with
      | nil => exact List.prefix_rfl
      | cons r rest => exact List.prefix_append _ _
  | tools =>
    simp only [adaStep, adaToolsNode]
    cases hm : st.messages.getLast? with
    | none => exact List.prefix_append _ _
    | some last =>
      by_cases hc : (msgToolCalls last).isEmpty
      · simp only [hc, if_pos]
        exact List.prefix_append _ _
      · simp only [hc, if_neg, Bool.false_eq_true, not_false_iff]
        exact List.prefix_append _ _
  | record_step =>
    simp only [adaStep, adaRecordStepNode]
    by_cases h : st.current_plan.length ≤ st.current_step_index
    · simp only [h, if_pos]
      exact List.prefix_append _ _
    · simp only [h, if_neg, not_false_iff]
      exact List.prefix_append _ _
  | replanner =>
    cases script with
    | nil => exact List.prefix_rfl
    | cons r rest =>
      simp only [adaStep, adaReplannerNode]
      by_cases h1 : pyContains r.content (str "DECISION: FINISHED")
      · simp only [h1, if_pos]
        exact List.prefix_append _ _
      · by_cases h2 : pyContains r.content (str "DECISION: MODIFY") &&
            pyContains r.content (str "NEW_PLAN:")
        · simp only [h1, h2, if_neg, if_pos, Bool.false_eq_true, not_false_iff]
          exact List.prefix_append _ _
        · simp only [h1, h2, if_neg, Bool.false_eq_true, not_false_iff]
          exact List.prefix_append _ _
  | done => exact List.prefix_rfl

theorem adaRun_msgs_extend (reg : ToolRegistry) (n : Nat) (c : AdaCfg) :
    c.st.messages <+: (adaRun reg n c).st.messages := by
  induction n generalizing c with
  | zero => exact List.prefix_rfl
  | succ n ih => exact (adaStep_msgs_extend reg c).trans (ih (adaStep reg c))

theorem latsStep_msgs_extend (jp : JsonParse) (tx : ToolExec) (nc mi : Nat) (c : LatsCfg) :
    c.st.messages <+: (latsStep jp tx nc mi c).st.messages := by
  rcases c with ⟨node, st, script, cc, sp, inv, fw⟩
  cases node with
  | generator =>
    cases script with
    | nil => exact List.prefix_rfl
    | cons r rest => exact List.prefix_append _ _
  | execute_candidate =>
    simp only [latsStep, latsExecuteCandidateNode]
    by_cases h : st.candidates.length ≤ st.current_candidate_index
    · simp only [h, if_pos]
      exact List.prefix_append _ _
    · simp only [h, if_neg, not_false_iff]
      by_cases h2 : optStrTruthy (st.candidates.getD st.current_candidate_index
          ⟨[], none, none, none⟩).tool && argsTruthy (st.candidates.getD
          st.current_candidate_index ⟨[], none, none, none⟩).args
      · simp only [h2, if_pos]
        exact List.prefix_append _ _
      · simp only [h2, if_neg, Bool.false_eq_true, not_false_iff]
        exact List.prefix_append _ _
  | tools => exact List.prefix_append _ _
  | process_result =>
    simp only [latsStep, latsProcessToolResultNode]
    by_cases h : st.candidates.length ≤ st.current_candidate_index
    · simp only [h, if_pos]
      exact List.prefix_append _ _
    · simp only [h, if_neg, not_false_iff]
      exact List.prefix_append _ _
  | evaluator =>
    cases script with
    | nil => exact List.prefix_rfl
    | cons r rest => exact List.prefix_append _ _
  | selector =>
    cases script with
    | nil => exact List.prefix_rfl
    | cons r rest =>
      simp only [latsStep, latsSelectorNode]
      by_cases h : st.is_solved || decide (mi ≤ cc + 1)
      · simp only [h, if_pos]
        exact List.prefix_append _ _
      · simp only [h, if_neg, Bool.false_eq_true, not_false_iff]
        exact List.prefix_append _ _
  | done => exact List.prefix_rfl

theorem latsRun_msgs_extend (jp : JsonParse) (tx : ToolExec) (nc mi n : Nat) (c : LatsCfg) :
    c.st.messages <+: (latsRun jp tx nc mi n c).st.messages := by
  induction n generalizing c with
  | zero => exact List.prefix_rfl
  | succ n ih => exact (latsStep_msgs_extend jp tx nc mi c).trans (ih (latsStep jp tx nc mi c))

/-- C2: every node's partial update only appends to the message sequence
(the `messages` field is merged by `add_messages` append, every other field
is replaced when present), so over any number of engine steps of any of the
five strategies the message sequence of the State Record only grows at the
end: the old sequence stays an unchanged prefix and its length is
non-decreasing. -/
theorem messages_append_only :
    (∀ (s : ReactState) (u : ReactUpdate), s.messages <+: (s.applyUpdate u).messages) ∧
    (∀ (s : PSState) (u : PSUpdate), s.messages <+: (s.applyUpdate u).messages) ∧
    (∀ (s : RefState) (u : RefUpdate), s.messages <+: (s.applyUpdate u).messages) ∧
    (∀ (s : AdaState) (u : AdaUpdate), s.messages <+: (s.applyUpdate u).messages) ∧
    (∀ (s : LatsState) (u : LatsUpdate), s.messages <+: (s.applyUpdate u).messages) ∧
    (∀ (s : PSState) (p : List Str), (s.applyUpdate { plan := some p }).plan = p) ∧
    (∀ (s : RefState) (i : Nat), (s.applyUpdate { iteration := some i }).iteration = i) ∧
    (∀ (s : AdaState) (pl : List Str),
      (s.applyUpdate { current_plan := some pl }).current_plan = pl) ∧
    (∀ (s : LatsState) (cs : List Cand),
      (s.applyUpdate { candidates := some cs }).candidates = cs) ∧
    (∀ (s : ReactState) (a : Str),
      (s.applyUpdate { final_answer := some a }).final_answer = some a) ∧
    (∀ (tx : ToolExec) (n : Nat) (c : ReactCfg),
      c.st.messages <+: (reactRun tx n c).st.messages ∧
      c.st.messages.length ≤ (reactRun tx n c).st.messages.length) ∧
    (∀ (tx : ToolExec) (n : Nat) (c : PSCfg),
      c.st.messages <+: (psRun tx n c).st.messages ∧
      c.st.messages.length ≤ (psRun tx n c).st.messages.length) ∧
    (∀ (tx : ToolExec) (mi n : Nat) (c : RefCfg),
      c.st.messages <+: (refRun tx mi n c).st.messages ∧
      c.st.messages.length ≤ (refRun tx mi n c).st.messages.length) ∧
    (∀ (reg : ToolRegistry) (n : Nat) (c : AdaCfg),
      c.st.messages <+: (adaRun reg n c).st.messages ∧
      c.st.messages.length ≤ (adaRun reg n c).st.messages.length) ∧
    (∀ (jp : JsonParse) (tx : ToolExec) (nc mi n : Nat) (c : LatsCfg),
      c.st.messages <+: (latsRun jp tx nc mi n c).st.messages ∧
      c.st.messages.length ≤ (latsRun jp tx nc mi n c).st.messages.length) := by
  refine ⟨fun s u => List.prefix_append _ _, fun s u => List.prefix_append _ _,
    fun s u => List.prefix_append _ _, fun s u => List.prefix_append _ _,
    fun s u => List.prefix_append _ _, fun s p => rfl, fun s i => rfl, fun s pl => rfl,
    fun s cs => rfl, fun s a => rfl, ?_, ?_, ?_, ?_, ?_⟩
  · exact fun tx n c => ⟨reactRun_msgs_extend tx n c, (reactRun_msgs_extend tx n c).length_le⟩
  · exact fun tx n c => ⟨psRun_msgs_extend tx n c, (psRun_msgs_extend tx n c).length_le⟩
  · exact fun tx mi n c => ⟨refRun_msgs_extend tx mi n c, (refRun_msgs_extend tx mi n c).length_le⟩
  · exact fun reg n c => ⟨adaRun_msgs_extend reg n c, (adaRun_msgs_extend reg n c).length_le⟩
  · exact fun jp tx nc mi n c =>
      ⟨latsRun_msgs_extend jp tx nc mi n c, (latsRun_msgs_extend jp tx nc mi n c).length_le⟩

/-! ## `final_answer` write discipline -/

theorem reactStep_writeInv (tx : ToolExec) (c : ReactCfg) (h : c.writeInv) :
    (reactStep tx c).writeInv := by
  rcases c with ⟨node, st, script, av, fw⟩
  obtain ⟨h1, h2⟩ := h
  dsimp only at h1 h2
  cases node with
  | agent =>
    have hfw : fw = 0 := by
      rcases Nat.lt_or_ge fw 1 with h | h
      · omega
      · exact absurd (h2 (by omega)) (by simp)
    subst hfw
    cases script with
    | nil => exact ⟨by simp [reactStep], by simp [reactStep]⟩
    | cons r rest =>
      by_cases he : r.tool_calls.isEmpty
      · refine ⟨?_, fun _ => ?_⟩ <;>
          simp [reactStep, reactAgentNode, he, countWrite, reactShouldContinue,
            ReactState.applyUpdate, hasToolCalls_append_ai]
      · refine ⟨?_, ?_⟩ <;>
          simp [reactStep, reactAgentNode, he, countWrite, reactShouldContinue,
            ReactState.applyUpdate, hasToolCalls_append_ai]
  | tools =>
    have hfw : fw = 0 := by
      rcases Nat.lt_or_ge fw 1 with h | h
      · omega
      · exact absurd (h2 (by omega)) (by simp)
    subst hfw
    exact ⟨by simp [reactStep], by simp [reactStep]⟩
  | done => exact ⟨h1, h2⟩

theorem reactRun_writeInv (tx : ToolExec) (n : Nat) (c : ReactCfg) (h : c.writeInv) :
    (reactRun tx n c).writeInv := by
  induction n generalizing c with
  | zero => exact h
  | succ n ih => exact ih (reactStep tx c) (reactStep_writeInv tx c h)

theorem refStep_writeInv (tx : ToolExec) (mi : Nat) (c : RefCfg) (h : c.writeInv) :
    (refStep tx mi c).writeInv := by
  rcases c with ⟨node, st, script, cp, fw⟩
  obtain ⟨h1, h2⟩ := h
  dsimp only at h1 h2
  cases node with
  | actor =>
    have hfw : fw = 0 := by
      rcases Nat.lt_or_ge fw 1 with h | h
      · omega
      · exact absurd (h2 (by omega)) (by simp)
    subst hfw
    cases script with
    | nil => exact ⟨by simp [refStep], by simp [refStep]⟩
    | cons r rest => exact ⟨by simp [refStep], by simp [refStep]⟩
  | tools =>
    have hfw : fw = 0 := by
      rcases Nat.lt_or_ge fw 1 with h | h
      · omega
      · exact absurd (h2 (by omega)) (by simp)
    subst hfw
    exact ⟨by simp [refStep], by simp [refStep]⟩
  | critique =>
    have hfw : fw = 0 := by
      rcases Nat.lt_or_ge fw 1 with h | h
      · omega
      · exact absurd (h2 (by omega)) (by simp)
    subst hfw
    cases script with
    | nil => exact ⟨by simp [refStep], by simp [refStep]⟩
    | cons r rest => exact ⟨by simp [refStep], by simp [refStep]⟩
  | finalize =>
    have hfw : fw = 0 := by
      rcases Nat.lt_or_ge fw 1 with h | h
      · omega
      · exact absurd (h2 (by omega)) (by simp)
    subst hfw
    exact ⟨by simp [refStep, refFinalizeNode, countWrite], by simp [refStep]⟩
  | done => exact ⟨h1, h2⟩

theorem refRun_writeInv (tx : ToolExec) (mi n : Nat) (c : RefCfg) (h : c.writeInv) :
    (refRun tx mi n c).writeInv := by
  induction n generalizing c with
  | zero => exact h
  | succ n ih => exact ih (refStep tx mi c) (refStep_writeInv tx mi c h)

/-- An update carrying a truthy `final_answer` sends the AdaPlanner
top-level dispatch to `__end__`. -/
theorem adaShouldContinue_of_truthy (u : AdaUpdate) (s : AdaState)
    (h : optStrTruthy u.final_answer = true) :
    adaShouldContinue (s.applyUpdate u) = .finish := by
  cases hf : u.final_answer with
  | none => rw [hf] at h; exact absurd h (by simp [optStrTruthy])
  | some a =>
    rw [hf] at h
    simp [adaShouldContinue, AdaState.applyUpdate, hf, h]

theorem adaStep_writeInv (reg : ToolRegistry) (c : AdaCfg) (h : c.writeInv) :
    (adaStep reg c).writeInv := by
  rcases c with ⟨node, st, script, fw, fwne⟩
  obtain ⟨h1, h2⟩ := h
  dsimp only at h1 h2
  cases node with
  | planner =>
    have hfw : fwne = 0 := by
      rcases Nat.lt_or_ge fwne 1 with h | h
      · omega
      · exact absurd (h2 (by omega)) (by simp)
    subst hfw
    cases script with
    | nil => exact ⟨by simp [adaStep], by simp [adaStep]⟩
    | cons r rest => exact ⟨by simp [adaStep], by simp [adaStep]⟩
  | executor =>
    have hfw : fwne = 0 := by
      rcases Nat.lt_or_ge fwne 1 with h | h
      · omega
      · exact absurd (h2 (by omega)) (by simp)
    subst hfw
    by_cases hg : st.current_plan.length ≤ st.current_step_index
    · refine ⟨?_, ?_⟩ <;> simp [adaStep, hg]
    · cases script with
      | nil => refine ⟨?_, ?_⟩ <;> simp [adaStep, hg]
      | cons r rest => refine ⟨?_, ?_⟩ <;> simp [adaStep, hg]
  | tools =>
    have hfw : fwne = 0 := by
      rcases Nat.lt_or_ge fwne 1 with h | h
      · omega
      · exact absurd (h2 (by omega)) (by simp)
    subst hfw
    exact ⟨by simp [adaStep], by simp [adaStep]⟩
  | record_step =>
    have hfw : fwne = 0 := by
      rcases Nat.lt_or_ge fwne 1 with h | h
      · omega
      · exact absurd (h2 (by omega)) (by simp)
    subst hfw
    exact ⟨by simp [adaStep], by simp [adaStep]⟩
  | replanner =>
    have hfw : fwne = 0 := by
      rcases Nat.lt_or_ge fwne 1 with h | h
      · omega
      · exact absurd (h2 (by omega)) (by simp)
    subst hfw
    cases script with
    | nil => exact ⟨by simp [adaStep], by simp [adaStep]⟩
    | cons r rest =>
      by_cases ht : optStrTruthy (adaReplannerNode r st).final_answer
      · constructor
        · simp [adaStep, countWriteNE, ht]
        · intro _
          simp only [adaStep]
          rw [adaShouldContinue_of_truthy _ _ ht]
      · refine ⟨?_, ?_⟩ <;> simp [adaStep, countWriteNE, ht]
  | done => exact ⟨h1, h2⟩

theorem adaRun_writeInv (reg : ToolRegistry) (n : Nat) (c : AdaCfg) (h : c.writeInv) :
    (adaRun reg n c).writeInv := by
  induction n generalizing c with
  | zero => exact h
  | succ n ih => exact ih (adaStep reg c) (adaStep_writeInv reg c h)

/-- When the selector assigns `final_answer`, it also marks the run
solved. -/
theorem latsSelectorNode_write_solved (mi : Nat) (r : LlmResp) (cnt : Nat)
    (st : LatsState) (h : (latsSelectorNode mi r cnt st).final_answer.isSome) :
    (latsSelectorNode mi r cnt st).is_solved = some true := by
  by_cases hb : (st.is_solved || decide (mi ≤ cnt)) = true
  · simp [latsSelectorNode, hb]
  · rw [Bool.not_eq_true] at hb
    exact absurd h (by simp [latsSelectorNode, hb])

/-- An update marking the run solved sends the LATS top-level dispatch to
`__end__`. -/
theorem latsShouldContinue_of_solved (u : LatsUpdate) (s : LatsState)
    (h : u.is_solved = some true) :
    latsShouldContinue (s.applyUpdate u) = .finish := by
  simp [latsShouldContinue, LatsState.applyUpdate, h]

theorem latsStep_writeInv (jp : JsonParse) (tx : ToolExec) (nc mi : Nat)
    (c : LatsCfg) (h : c.writeInv) : (latsStep jp tx nc mi c).writeInv := by
  rcases c with ⟨node, st, script, cc, sp, inv, fw⟩
  obtain ⟨h1, h2⟩ := h
  dsimp only at h1 h2
  cases node with
  | generator =>
    have hfw : fw = 0 := by
      rcases Nat.lt_or_ge fw 1 with h | h
      · omega
      · exact absurd (h2 (by omega)) (by simp)
    subst hfw
    cases script with
    | nil => exact ⟨by simp [latsStep], by simp [latsStep]⟩
    | cons r rest => exact ⟨by simp [latsStep], by simp [latsStep]⟩
  | execute_candidate =>
    have hfw : fw = 0 := by
      rcases Nat.lt_or_ge fw 1 with h | h
      · omega
      · exact absurd (h2 (by omega)) (by simp)
    subst hfw
    exact ⟨by simp [latsStep], by simp [latsStep]⟩
  | tools =>
    have hfw : fw = 0 := by
      rcases Nat.lt_or_ge fw 1 with h | h
      · omega
      · exact absurd (h2 (by omega)) (by simp)
    subst hfw
    exact ⟨by simp [latsStep], by simp [latsStep]⟩
  | process_result =>
    have hfw : fw = 0 := by
      rcases Nat.lt_or_ge fw 1 with h | h
      · omega
      · exact absurd (h2 (by omega)) (by simp)
    subst hfw
    exact ⟨by simp [latsStep], by simp [latsStep]⟩
  | evaluator =>
    have hfw : fw = 0 := by
      rcases Nat.lt_or_ge fw 1 with h | h
      · omega
      · exact absurd (h2 (by omega)) (by simp)
    subst hfw
    cases script with
    | nil => exact ⟨by simp [latsStep], by simp [latsStep]⟩
    | cons r rest => exact ⟨by simp [latsStep], by simp [latsStep]⟩
  | selector =>
    have hfw : fw = 0 := by
      rcases Nat.lt_or_ge fw 1 with h | h
      · omega
      · exact absurd (h2 (by omega)) (by simp)
    subst hfw
    cases script with
    | nil => exact ⟨by simp [latsStep], by simp [latsStep]⟩
    | cons r rest =>
      by_cases hw : (latsSelectorNode mi r (cc + 1) st).final_answer.isSome
      · constructor
        · simp [latsStep, countWrite, hw]
        · intro _
          simp only [latsStep]
          rw [latsShouldContinue_of_solved _ _ (latsSelectorNode_write_solved mi r (cc + 1) st hw)]
      · refine ⟨?_, ?_⟩ <;> simp [latsStep, countWrite, hw]
  | done => exact ⟨h1, h2⟩

theorem latsRun_writeInv (jp : JsonParse) (tx : ToolExec) (nc mi n : Nat)
    (c : LatsCfg) (h : c.writeInv) : (latsRun jp tx nc mi n c).writeInv := by
  induction n generalizing c with
  | zero => exact h
  | succ n ih => exact ih (latsStep jp tx nc mi c) (latsStep_writeInv jp tx nc mi c h)

/-- C1 (amended): `final_answer` is assigned at most once per run by ReAct,
Reflexion and LATS; AdaPlanner assigns a non-empty `final_answer` at most
once (only a truthy assignment ends the run); but the Plan-and-Solve
executor assigns `final_answer` on every visit, so a Plan-and-Solve run
whose executor response carries tool calls assigns it more than once, the
last assignment winning. -/
theorem finalAnswer_write_discipline :
    (∀ resp : LlmResp, (psExecutorNode resp).final_answer.isSome = true) ∧
    (∀ (tx : ToolExec) (n : Nat) (c : ReactCfg), c.faWrites = 0 →
      (reactRun tx n c).faWrites ≤ 1) ∧
    (∀ (tx : ToolExec) (mi n : Nat) (c : RefCfg), c.faWrites = 0 →
      (refRun tx mi n c).faWrites ≤ 1) ∧
    (∀ (reg : ToolRegistry) (n : Nat) (c : AdaCfg), c.faNonemptyWrites = 0 →
      (adaRun reg n c).faNonemptyWrites ≤ 1) ∧
    (∀ (jp : JsonParse) (tx : ToolExec) (nc mi n : Nat) (c : LatsCfg), c.faWrites = 0 →
      (latsRun jp tx nc mi n c).faWrites ≤ 1) := by
  refine ⟨fun resp => rfl, ?_, ?_, ?_, ?_⟩
  · intro tx n c h
    exact (reactRun_writeInv tx n c ⟨by omega, fun h1 => absurd h1 (by omega)⟩).1
  · intro tx mi n c h
    exact (refRun_writeInv tx mi n c ⟨by omega, fun h1 => absurd h1 (by omega)⟩).1
  · intro reg n c h
    exact (adaRun_writeInv reg n c ⟨by omega, fun h1 => absurd h1 (by omega)⟩).1
  · intro jp tx nc mi n c h
    exact (latsRun_writeInv jp tx nc mi n c ⟨by omega, fun h1 => absurd h1 (by omega)⟩).1

/-- Witness for C1's amended theorem at concrete runs. -/
theorem finalAnswer_write_discipline_witness :
    (reactRun txConst 5 (reactTwoTurnCfg (str "q") (str "c1") (str "c2")
      ⟨str "i", str "t", []⟩)).faWrites ≤ 1 ∧
    (refRun txConst 3 20 refNeverGoodCfg).faWrites ≤ 1 ∧
    (adaRun adaRegAB 4 adaFreshCfg).faNonemptyWrites ≤ 1 ∧
    (latsRun jpNone txConst 3 2 10 (latsNeverSolvedCfg 0)).faWrites ≤ 1 :=
  ⟨finalAnswer_write_discipline.2.1 txConst 5 _ rfl,
   finalAnswer_write_discipline.2.2.1 txConst 3 20 refNeverGoodCfg rfl,
   finalAnswer_write_discipline.2.2.2.1 adaRegAB 4 adaFreshCfg rfl,
   finalAnswer_write_discipline.2.2.2.2 jpNone txConst 3 2 10 (latsNeverSolvedCfg 0) rfl⟩

/-- C1 counterexample: two runs on which `final_answer` is assigned twice,
refuting "assigned a value at most once per run".  (a) A Plan-and-Solve run
whose first executor response carries a tool call assigns it on the
tool-calling visit and again on the final visit.  (b) An AdaPlanner run
whose replanner answers `DECISION: FINISHED` with an empty `ANSWER:`
assigns `final_answer = ""` (ada_planner.py line 257), the falsy answer
does not end the run (line 290), and a later non-empty FINISHED response
assigns it a second time — which is why the amended claim only bounds
AdaPlanner's *non-empty* assignments. -/
theorem finalAnswer_double_write :
    (psRun txConst 5 psDoubleCfg).faWrites = 2 ∧
    ¬((psRun txConst 5 psDoubleCfg).faWrites ≤ 1) ∧
    (psRun txConst 5 psDoubleCfg).node = PSNode.done ∧
    (psRun txConst 5 psDoubleCfg).st.final_answer = some (str "the final text") ∧
    (adaRun adaRegAB 4 adaDoubleCfg).faWrites = 1 ∧
    (adaRun adaRegAB 4 adaDoubleCfg).st.final_answer = some [] ∧
    (adaRun adaRegAB 4 adaDoubleCfg).node = AdaNode.executor ∧
    (adaRun adaRegAB 8 adaDoubleCfg).faWrites = 2 ∧
    ¬((adaRun adaRegAB 8 adaDoubleCfg).faWrites ≤ 1) ∧
    (adaRun adaRegAB 8 adaDoubleCfg).faNonemptyWrites = 1 ∧
    (adaRun adaRegAB 8 adaDoubleCfg).node = AdaNode.done ∧
    (adaRun adaRegAB 8 adaDoubleCfg).st.final_answer = some (str "the answer") := by
  decide

/-- C9: with a model stub that returns a tool-call message on its first
invocation and a content-only message on its second, the ReAct run visits
`agent` exactly twice, terminates, and `final_answer` equals the second
response's content (the tool round-trip goes `agent` → `tools` → `agent` →
end). -/
theorem react_two_turn_run (q c1 c2 : Str) (tc : ToolCall) (tx : ToolExec) :
    (reactRun tx 3 (reactTwoTurnCfg q c1 c2 tc)).node = ReactNode.done ∧
    (reactRun tx 3 (reactTwoTurnCfg q c1 c2 tc)).agentVisits = 2 ∧
    (reactRun tx 3 (reactTwoTurnCfg q c1 c2 tc)).st.final_answer = some c2 ∧
    (reactRun tx 3 (reactTwoTurnCfg q c1 c2 tc)).st.messages =
      [Msg.human q, Msg.ai c1 [tc],
       Msg.tool (tx tc.name tc.args) tc.id (some tc.name), Msg.ai c2 []] := by
  refine ⟨rfl, rfl, rfl, rfl⟩

theorem refStep_loopInv (tx : ToolExec) (mi : Nat) (c : RefCfg)
    (h : RefCfg.loopInv mi c) : RefCfg.loopInv mi (refStep tx mi c) := by
  rcases c with ⟨node, st, script, cp, fw⟩
  obtain ⟨h1, h2, h3⟩ := h
  dsimp only at h1 h2 h3
  cases node with
  | actor =>
    have hlt : st.iteration < mi := h3 (Or.inl rfl)
    cases script with
    | nil =>
      refine ⟨?_, ?_, ?_⟩ <;> dsimp only [refStep, RefCfg.loopInv]
      · exact h1
      · omega
      · intro hn
        rcases hn with hn | hn | hn <;> cases hn
    | cons r rest =>
      refine ⟨?_, ?_, ?_⟩ <;>
        dsimp only [refStep, RefCfg.loopInv, RefState.applyUpdate, refActorNode,
          Option.getD]
      · exact h1
      · omega
      · intro _
        exact hlt
  | tools =>
    have hlt : st.iteration < mi := h3 (Or.inr (Or.inl rfl))
    refine ⟨?_, ?_, ?_⟩ <;>
      dsimp only [refStep, RefCfg.loopInv, RefState.applyUpdate, Option.getD]
    · exact h1
    · omega
    · intro _
      exact hlt
  | critique =>
    have hlt : st.iteration < mi := h3 (Or.inr (Or.inr rfl))
    cases script with
    | nil =>
      refine ⟨?_, ?_, ?_⟩ <;> dsimp only [refStep]
      · exact h1
      · omega
      · intro hn
        rcases hn with hn | hn | hn <;> cases hn
    | cons r rest =>
      have hit : (st.applyUpdate (refCritiqueNode r st)).iteration = st.iteration + 1 := rfl
      cases hr : refShouldContinue mi (st.applyUpdate (refCritiqueNode r st)) with
      | actor =>
        have hcond : ¬(pyContains (st.applyUpdate (refCritiqueNode r st)).critique
            (str "VERDICT: GOOD") ||
            decide (mi ≤ (st.applyUpdate (refCritiqueNode r st)).iteration)) = true := by
          intro hcc
          rw [refShouldContinue, if_pos hcc] at hr
          cases hr
        have hbound : ¬(mi ≤ st.iteration + 1) := by
          intro hle
          apply hcond
          rw [hit]
          simp [hle]
        refine ⟨?_, ?_, ?_⟩ <;>
          simp only [refStep, hr, hit]
        · rw [h1]
        · omega
        · intro _
          omega
      | finish =>
        refine ⟨?_, ?_, ?_⟩ <;>
          simp only [refStep, hr, hit]
        · rw [h1]
        · omega
        · intro hn
          rcases hn with hn | hn | hn <;> cases hn
  | finalize =>
    refine ⟨?_, ?_, ?_⟩ <;> dsimp only [refStep, refFinalizeNode, RefState.applyUpdate,
      Option.getD]
    · exact h1
    · omega
    · intro hn
      rcases hn with hn | hn | hn <;> cases hn
  | done =>
    exact ⟨h1, h2, fun hn => by rcases hn with hn | hn | hn <;> cases hn⟩

theorem refRun_loopInv (tx : ToolExec) (mi n : Nat) (c : RefCfg)
    (h : RefCfg.loopInv mi c) : RefCfg.loopInv mi (refRun tx mi n c) := by
  induction n generalizing c with
  | zero => exact h
  | succ n ih => exact ih (refStep tx mi c) (refStep_loopInv tx mi c h)

/-- C3: each execution of the critique node increments `iteration` by
exactly 1 (whatever actor/tools round-trips preceded it); the loop leaves
for `finalize` exactly when the verdict contains the `VERDICT: GOOD` marker
or `iteration` has reached the maximum (default 3); `finalize` sets
`final_answer` to `draft_answer`; over any run started fresh the number of
critique passes never exceeds the maximum and always equals the iteration
counter; and a concrete run whose verdicts are never good still terminates
through `finalize` after exactly 3 passes with `final_answer` equal to the
last draft. -/
theorem reflexion_critique_loop :
    (∀ (resp : LlmResp) (st : RefState),
      (st.applyUpdate (refCritiqueNode resp st)).iteration = st.iteration + 1) ∧
    (∀ (mi : Nat) (st : RefState),
      refShouldContinue mi st = RefLoopRoute.finish ↔
        (pyContains st.critique (str "VERDICT: GOOD") = true ∨ mi ≤ st.iteration)) ∧
    (∀ st : RefState,
      (st.applyUpdate (refFinalizeNode st)).final_answer = some st.draft_answer) ∧
    (∀ (tx : ToolExec) (mi n : Nat) (c : RefCfg), c.node = RefNode.actor →
      c.st.iteration = 0 → c.critiquePasses = 0 → 1 ≤ mi →
      (refRun tx mi n c).critiquePasses ≤ mi ∧
      (refRun tx mi n c).st.iteration = (refRun tx mi n c).critiquePasses) ∧
    ((refRun txConst reflexionMaxIterations 20 refNeverGoodCfg).node = RefNode.done ∧
      (refRun txConst reflexionMaxIterations 20 refNeverGoodCfg).critiquePasses = 3 ∧
      (refRun txConst reflexionMaxIterations 20 refNeverGoodCfg).st.final_answer =
        some (str "draft3")) := by
  refine ⟨fun resp st => rfl, ?_, fun st => rfl, ?_, by decide⟩
  · intro mi st
    by_cases hb : (pyContains st.critique (str "VERDICT: GOOD") ||
        decide (mi ≤ st.iteration)) = true
    · simp only [refShouldContinue, if_pos hb]
      simp only [Bool.or_eq_true, decide_eq_true_eq] at hb
      exact ⟨fun _ => hb, fun _ => trivial⟩
    · simp only [refShouldContinue, if_neg hb]
      simp only [Bool.or_eq_true, decide_eq_true_eq, not_or] at hb
      constructor
      · intro hcon
        cases hcon
      · intro hor
        rcases hor with h | h
        · exact absurd h hb.1
        · exact absurd h hb.2
  · intro tx mi n c hn hi hp hm
    have hinv : RefCfg.loopInv mi c := by
      refine ⟨by omega, by omega, fun _ => by omega⟩
    obtain ⟨e1, e2, _⟩ := refRun_loopInv tx mi n c hinv
    exact ⟨by omega, e1.symm⟩

/-- Witness for C3's run-level clauses at a concrete never-good run. -/
theorem reflexion_critique_loop_witness :
    (refRun txConst 3 20 refNeverGoodCfg).critiquePasses ≤ 3 ∧
    (refRun txConst 3 20 refNeverGoodCfg).st.iteration =
      (refRun txConst 3 20 refNeverGoodCfg).critiquePasses ∧
    (refShouldContinue 3 refGoodVerdictSt = RefLoopRoute.finish ↔
      (pyContains (str "VERDICT: GOOD") (str "VERDICT: GOOD") = true ∨ (3 : Nat) ≤ 0)) :=
  ⟨(reflexion_critique_loop.2.2.2.1 txConst 3 20 refNeverGoodCfg rfl rfl rfl
      (by omega)).1,
   (reflexion_critique_loop.2.2.2.1 txConst 3 20 refNeverGoodCfg rfl rfl rfl
      (by omega)).2,
   reflexion_critique_loop.2.1 3 refGoodVerdictSt⟩

/-- C4 (code bug): in a LATS round whose second candidate carries no
tool+arguments pair, the cursor is advanced both by `execute_candidate` and
by the `process_result` node it is routed to, so the third candidate's tool
is never invoked (only `t1` ever reaches the tool node) and the third
candidate is handed the first candidate's tool result. -/
theorem lats_candidate_cursor_skips :
    (latsRun jpNone txLats 3 5 5 latsRoundCfg).node = LatsNode.evaluator ∧
    (latsRun jpNone txLats 3 5 5 latsRoundCfg).invoked = [str "t1"] ∧
    (latsRun jpNone txLats 3 5 5 latsRoundCfg).st.candidates.map (fun cd => cd.result) =
      [some (str "RA"), none, some (str "RA")] ∧
    (latsRun jpNone txLats 3 5 5 latsRoundCfg).st.current_candidate_index = 3 ∧
    txLats (str "t2") [(str "q", str "2")] = str "RC" := by
  decide

/-- C5 (code bug): the LATS iteration counter lives in a closure dict
shared by every run of one compiled graph, not in the State Record: with
`max_iterations = 2`, a first never-solved run performs 2 selector passes
and leaves the counter at 2; an identical second run through the same graph
then performs only 1 selector pass before hitting the cap. -/
theorem lats_shared_iteration_counter :
    (latsRun jpNone txConst 3 2 10 (latsNeverSolvedCfg 0)).selectorPasses = 2 ∧
    (latsRun jpNone txConst 3 2 10 (latsNeverSolvedCfg 0)).node = LatsNode.done ∧
    (latsRun jpNone txConst 3 2 10 (latsNeverSolvedCfg 0)).counterCell = 2 ∧
    (latsRun jpNone txConst 3 2 10 (latsNeverSolvedCfg
      (latsRun jpNone txConst 3 2 10 (latsNeverSolvedCfg 0)).counterCell)).selectorPasses = 1 ∧
    (latsRun jpNone txConst 3 2 10 (latsNeverSolvedCfg
      (latsRun jpNone txConst 3 2 10 (latsNeverSolvedCfg 0)).counterCell)).node =
      LatsNode.done := by
  decide

/-- C7: a replanner response `"DECISION: MODIFY\nNEW_PLAN: 1. X\n2. Y"`
resets the step index to 0 and replaces the plan with exactly
`["1. X", "2. Y"]`, whatever the previous state was. -/
theorem ada_replanner_modify_replaces_plan (st : AdaState) :
    (adaReplannerNode adaModifyResp st).current_plan = some [str "1. X", str "2. Y"] ∧
    (adaReplannerNode adaModifyResp st).current_step_index = some 0 ∧
    (adaReplannerNode adaModifyResp st).final_answer = none ∧
    (st.applyUpdate (adaReplannerNode adaModifyResp st)).current_plan =
      [str "1. X", str "2. Y"] ∧
    (st.applyUpdate (adaReplannerNode adaModifyResp st)).current_step_index = 0 := by
  refine ⟨rfl, rfl, rfl, rfl, rfl⟩

/-- C10 (amended): a replanner response that contains `DECISION: MODIFY`
and `NEW_PLAN:` **and not `DECISION: FINISHED`**, whose NEW_PLAN text
yields no plan line starting with a digit or `-`, keeps the previous plan
unchanged (no raw-text fallback) while still resetting the step index to
0. -/
theorem ada_replanner_unparsable_new_plan (content : Str) (tcs : List ToolCall)
    (st : AdaState)
    (h1 : pyContains content (str "DECISION: FINISHED") = false)
    (h2 : pyContains content (str "DECISION: MODIFY") = true)
    (h3 : pyContains content (str "NEW_PLAN:") = true)
    (h4 : parsePlanLines (pyStrip ((pySplit content (str "NEW_PLAN:")).getLastD [])) = []) :
    (adaReplannerNode ⟨content, tcs⟩ st).current_plan = some st.current_plan ∧
    (adaReplannerNode ⟨content, tcs⟩ st).current_step_index = some 0 ∧
    (adaReplannerNode ⟨content, tcs⟩ st).final_answer = none ∧
    (st.applyUpdate (adaReplannerNode ⟨content, tcs⟩ st)).current_plan = st.current_plan ∧
    (st.applyUpdate (adaReplannerNode ⟨content, tcs⟩ st)).current_step_index = 0 := by
  have h4' : parsePlanLines (pyStrip (((pySplit content
      (str "NEW_PLAN:")).getLast?).getD [])) = [] := by
    simpa [List.getLastD_eq_getLast?] using h4
  refine ⟨?_, ?_, ?_, ?_, ?_⟩ <;>
    simp [adaReplannerNode, h1, h2, h3, h4', AdaState.applyUpdate]

/-- Witness for C10's amended theorem at a concrete unparsable MODIFY
response. -/
theorem ada_replanner_unparsable_new_plan_witness :
    (adaReplannerNode adaUnparsableModifyResp adaPlanSt).current_plan =
      some adaPlanSt.current_plan ∧
    (adaReplannerNode adaUnparsableModifyResp adaPlanSt).current_step_index = some 0 ∧
    (adaReplannerNode adaUnparsableModifyResp adaPlanSt).final_answer = none ∧
    (adaPlanSt.applyUpdate (adaReplannerNode adaUnparsableModifyResp
      adaPlanSt)).current_plan = adaPlanSt.current_plan ∧
    (adaPlanSt.applyUpdate (adaReplannerNode adaUnparsableModifyResp
      adaPlanSt)).current_step_index = 0 :=
  ada_replanner_unparsable_new_plan adaUnparsableModifyResp.content [] adaPlanSt
    (by decide) (by decide) (by decide) (by decide)

/-- C10 counterexample: a response containing `DECISION: MODIFY` and
`NEW_PLAN:` (with an unparsable NEW_PLAN body) but *also*
`DECISION: FINISHED` takes the FINISHED branch: the step index is not
reset (it stays 3 on `adaPlanSt`) and `final_answer` is assigned
instead. -/
theorem ada_replanner_finished_overrides_modify :
    pyContains adaFinishedModifyResp.content (str "DECISION: MODIFY") = true ∧
    pyContains adaFinishedModifyResp.content (str "NEW_PLAN:") = true ∧
    parsePlanLines (pyStrip ((pySplit adaFinishedModifyResp.content
      (str "NEW_PLAN:")).getLastD [])) = [] ∧
    (adaReplannerNode adaFinishedModifyResp adaPlanSt).current_step_index = none ∧
    (adaPlanSt.applyUpdate (adaReplannerNode adaFinishedModifyResp
      adaPlanSt)).current_step_index = 3 ∧
    ¬((adaPlanSt.applyUpdate (adaReplannerNode adaFinishedModifyResp
      adaPlanSt)).current_step_index = 0) ∧
    (adaReplannerNode adaFinishedModifyResp adaPlanSt).final_answer.isSome = true := by
  decide

/-- C8 (amended): for every tool-call request whose name resolves in the
registry, the AdaPlanner tool node emits exactly one tool-result message
carrying the originating call id, in declaration order with no reordering
or deduplication; a raising invocation contributes an `Error: ...` content
message instead of propagating; a request whose name resolves to no tool is
silently skipped (no message at all); and a last message without tool calls
is a no-op. -/
theorem ada_tools_node_resolvable_calls :
    (∀ (reg : ToolRegistry) (calls : List ToolCall),
      adaToolResults reg calls = calls.filterMap (fun tc =>
        (regLookup reg tc.name).map (fun f =>
          match f tc.args with
          | .ok r => Msg.tool r tc.id none
          | .error e => Msg.tool (str "Error: " ++ e) tc.id none))) ∧
    (∀ (reg : ToolRegistry) (calls : List ToolCall),
      (adaToolResults reg calls).map (fun m =>
          match m with
          | Msg.tool _ cid _ => cid
          | _ => []) =
        (calls.filter (fun tc => (regLookup reg tc.name).isSome)).map (fun tc => tc.id)) ∧
    (∀ (reg : ToolRegistry) (st : AdaState) (last : Msg),
      st.messages.getLast? = some last → (msgToolCalls last).isEmpty = true →
      adaToolsNode reg st = {}) ∧
    ((adaToolsNode adaRegAB adaThreeCallsSt).messages =
      [Msg.tool (str "okA") (str "i2") none,
       Msg.tool (str "Error: ka-pow") (str "i3") none]) := by
  refine ⟨?_, ?_, ?_, by decide⟩
  · intro reg calls
    induction calls with
    | nil => rfl
    | cons tc rest ih =>
      cases hl : regLookup reg tc.name with
      | none => simp [adaToolResults, hl, ih]
      | some f => simp [adaToolResults, hl, ih]
  · intro reg calls
    induction calls with
    | nil => rfl
    | cons tc rest ih =>
      cases hl : regLookup reg tc.name with
      | none => simp [adaToolResults, hl, ih]
      | some f =>
        cases hf : f tc.args with
        | ok r => simp [adaToolResults, hl, hf, ih]
        | error e => simp [adaToolResults, hl, hf, ih]
  · intro reg st last hl he
    simp [adaToolsNode, hl, he]

/-- Witness for C8's amended theorem, applying the no-op clause at a
concrete state and the characterization at the three-call state. -/
theorem ada_tools_node_resolvable_calls_witness :
    adaToolsNode adaRegAB adaPlanSt = {} ∧
    adaToolResults adaRegAB [⟨str "i1", str "beta", []⟩] =
      ([⟨str "i1", str "beta", []⟩] : List ToolCall).filterMap (fun tc =>
        (regLookup adaRegAB tc.name).map (fun f =>
          match f tc.args with
          | .ok r => Msg.tool r tc.id none
          | .error e => Msg.tool (str "Error: " ++ e) tc.id none)) :=
  ⟨ada_tools_node_resolvable_calls.2.2.1 adaRegAB adaPlanSt (Msg.human (str "q"))
      (by decide) (by decide),
   ada_tools_node_resolvable_calls.1 adaRegAB ([⟨str "i1", str "beta", []⟩] : List ToolCall)⟩

/-- C8 counterexample: a triggering message with one tool-call request
whose name (`beta`) resolves to no registry tool produces zero tool-result
messages, not exactly one. -/
theorem ada_tools_node_drops_unknown_tool :
    (msgToolCalls (Msg.ai [] [⟨str "i1", str "beta", []⟩])).length = 1 ∧
    (adaToolsNode adaRegAB adaUnknownCallSt).messages = [] ∧
    ¬((adaToolsNode adaRegAB adaUnknownCallSt).messages.length = 1) := by
  decide

/-! ## Evaluator score lemmas -/

theorem Dec.le_iff_toQ (a b : Dec) : Dec.le a b = true ↔ a.toQ ≤ b.toQ := by
  unfold Dec.le Dec.toQ
  rw [decide_eq_true_eq,
    div_le_div_iff₀ (by positivity : (0 : ℚ) < 10 ^ a.exp)
      (by positivity : (0 : ℚ) < 10 ^ b.exp)]
  constructor
  · intro h
    exact_mod_cast h
  · intro h
    exact_mod_cast h

theorem Dec.toQ_zero : Dec.toQ Dec.zero = 0 := by norm_num [Dec.toQ, Dec.zero]

theorem Dec.toQ_one : Dec.toQ Dec.one = 1 := by norm_num [Dec.toQ, Dec.one]

theorem Dec.toQ_half : Dec.toQ Dec.half = 1 / 2 := by norm_num [Dec.toQ, Dec.half]

/-- The clamped score of any evaluator line lies in `[0, 1]`. -/
theorem latsScoreOfLine_mem_unit (line : Str) :
    0 ≤ (latsScoreOfLine line).toQ ∧ (latsScoreOfLine line).toQ ≤ 1 := by
  unfold latsScoreOfLine
  cases hts : latsScoreTok line with
  | none =>
    dsimp only
    rw [Dec.toQ_half]
    norm_num
  | some q =>
    dsimp only
    have hmax : 0 ≤ (pyMax2 q Dec.zero).toQ := by
      unfold pyMax2
      by_cases hle : Dec.le Dec.zero q = true
      · rw [if_pos hle, ← Dec.toQ_zero]
        exact (Dec.le_iff_toQ _ _).1 hle
      · rw [if_neg hle, Dec.toQ_zero]
    unfold pyMin2
    by_cases hle2 : Dec.le (pyMax2 q Dec.zero) Dec.one = true
    · rw [if_pos hle2]
      refine ⟨hmax, ?_⟩
      have := (Dec.le_iff_toQ _ _).1 hle2
      rwa [Dec.toQ_one] at this
    · rw [if_neg hle2, Dec.toQ_one]
      norm_num

/-- Every score the evaluator parses is in `[0, 1]`. -/
theorem latsParseScores_mem_unit (content : Str) (d : Dec)
    (hd : d ∈ latsParseScores content) : 0 ≤ d.toQ ∧ d.toQ ≤ 1 := by
  unfold latsParseScores at hd
  rw [List.mem_filterMap] at hd
  obtain ⟨line, _, hline⟩ := hd
  by_cases hc : ((str "CANDIDATE").isPrefixOf (pyStrip line) &&
      pyContains line (str ":")) = true
  · rw [if_pos hc] at hline
    cases hline
    exact latsScoreOfLine_mem_unit line
  · rw [if_neg hc] at hline
    cases hline

theorem getD_replicate_half (k i : Nat) (h : i < k) :
    (List.replicate k Dec.half).getD i Dec.zero = Dec.half := by
  induction k generalizing i with
  | zero => omega
  | succ k ih =>
    cases i with
    | zero => rfl
    | succ i => exact ih i (by omega)

/-- C6: the evaluator response `"CANDIDATE 1: 0.9\nCANDIDATE 2: 0.2\nBEST:
1\nSOLVED: YES"` for a two-candidate round parses to the scores
`[0.9, 0.2]` with the solved flag set, the selector's best index is 0 (the
first strict maximum), and the run reaches the end state at that next
selector pass; in general every parsed score is clamped to `[0, 1]`, an
unparsable `CANDIDATE` line contributes `0.5`, and missing trailing scores
are padded with `0.5` up to the number of candidates. -/
theorem lats_evaluator_selector_spec :
    latsParseScores latsEvalContent = [⟨9, 1⟩, ⟨2, 1⟩] ∧
    (latsParseScores latsEvalContent).map Dec.toQ = [9 / 10, 1 / 5] ∧
    pyContains (pyUpper latsEvalContent) (str "SOLVED: YES") = true ∧
    latsBestIndex (latsParseScores latsEvalContent) = 0 ∧
    (latsRun jpNone txConst 3 5 2 latsEvalCfg).node = LatsNode.done ∧
    (latsRun jpNone txConst 3 5 2 latsEvalCfg).st.scores = [⟨9, 1⟩, ⟨2, 1⟩] ∧
    (latsRun jpNone txConst 3 5 2 latsEvalCfg).st.is_solved = true ∧
    (latsRun jpNone txConst 3 5 2 latsEvalCfg).st.final_answer =
      some (str "final synthesis") ∧
    (∀ (content : Str) (d : Dec), d ∈ latsParseScores content →
      0 ≤ d.toQ ∧ d.toQ ≤ 1) ∧
    (∀ line : Str, latsScoreTok line = none → latsScoreOfLine line = Dec.half) ∧
    (∀ (sc : List Dec) (n i : Nat), sc.length ≤ i → i < n →
      (latsPadScores sc n).getD i Dec.zero = Dec.half) := by
  refine ⟨by decide, ?_, by decide, by decide, by decide, by decide, by decide,
    by decide, latsParseScores_mem_unit, ?_, ?_⟩
  · rw [show latsParseScores latsEvalContent = [⟨9, 1⟩, ⟨2, 1⟩] from by decide]
    simp [Dec.toQ]
    norm_num
  · intro line h
    simp [latsScoreOfLine, h]
  · intro sc n i h1 h2
    unfold latsPadScores
    rw [List.getD_append_right _ _ _ _ h1]
    exact getD_replicate_half _ _ (by omega)

/-- Witness for C6's universally quantified clauses at concrete inputs. -/
theorem lats_evaluator_selector_spec_witness :
    (0 ≤ Dec.toQ ⟨9, 1⟩ ∧ Dec.toQ ⟨9, 1⟩ ≤ 1) ∧
    latsScoreOfLine (str "CANDIDATE 3: [score]") = Dec.half ∧
    (latsPadScores [⟨9, 1⟩] 3).getD 2 Dec.zero = Dec.half :=
  ⟨lats_evaluator_selector_spec.2.2.2.2.2.2.2.2.1 latsEvalContent ⟨9, 1⟩ (by decide),
   lats_evaluator_selector_spec.2.2.2.2.2.2.2.2.2.1 (str "CANDIDATE 3: [score]")
     (by decide),
   lats_evaluator_selector_spec.2.2.2.2.2.2.2.2.2.2 [⟨9, 1⟩] 3 2 (by decide) (by decide)⟩
